import Mathlib

/-
Verification of the dependency-injection resolver core
(`dependency_injection/core.py`, `utils.py`, `types_match.py`, `errors.py`).

The Python code is shallowly embedded: each resolver operation becomes an
executable Lean function over explicit state.  Python object identity is
modelled by tagging every freshly constructed value with a counter drawn
from a `World`; Python exceptions become an explicit error value whose
`pyClass` records the Python exception class that the raise statement in
the source uses, and whose `cause` field records `raise ... from ...`
chaining.  Mutation of resolver state survives a raised exception, as it
does in Python, so every operation returns its updated state next to the
`Except` result.
-/

set_option autoImplicit false

/-- Type tags requested from and declared by dependencies.  The resolver
core treats types opaquely: it only ever passes them to the pluggable
`types_matcher` of the container, so a plain tag suffices here.  The
default matcher `is_type_acceptable_in_place_of` is modelled separately
below over a richer class-table universe. -/
abbrev Ty := Nat

/-- Identity of a Python object produced by a factory.  Each factory call
returns a fresh identity, so two values are the identical instance exactly
when the tags are equal. -/
abbrev Value := Nat

/-- The four factory wrapper classes of `core.py`: `CallableFactory`,
`ContextManagerFactory`, `AsyncCallableFactory` and
`AsyncContextManagerFactory`. -/
inductive FactoryKind where
  | callable
  | contextManager
  | asyncCallable
  | asyncContextManager
deriving DecidableEq, Repr

/-- One registered dependency: `BaseDependency` of `core.py`.  `requires`
maps an argument name to the looked-up sub-dependency name and type, in
declaration order.  `isAsyncDep` records whether the Python object is an
`AsyncDependency` (the class tag that `isinstance` checks inspect);
`teardownFails` models a context-manager factory whose teardown raises;
`factorySuspends` models how many times an asynchronous factory yields
before completing. -/
structure Dep where
  name : String
  provides_type : Ty
  requires : List (String × String × Ty)
  factory : FactoryKind
  isAsyncDep : Bool
  teardownFails : Bool
  factorySuspends : Nat
deriving DecidableEq, Repr

/-- A container as the resolver sees it (`BaseContainer` protocol):
a name-keyed mapping `provides`, the never-read `provides_unnamed`
sequence, and the pluggable `types_matcher`. -/
structure Container where
  provides : List (String × Dep)
  provides_unnamed : List Dep
  types_matcher : Ty → Ty → Bool

/-- Python exception classes that the embedded code can raise. -/
inductive PyExcClass where
  | lookupError
  | typeError
  | runtimeError
  | recursionError
  | valueError
  | indexError
deriving DecidableEq, Repr

/-- The distinct raise sites of the embedded code, with the data each
message carries.  `depNotFound` and `depTypeMismatch` are the two
`LookupError` raises of `BaseResolver._lookup_dep`; `factoryTypeError`
is the `TypeError` fallthrough of `_create_dependency_sync`;
`resolverClassMismatch` is the `RuntimeError` raised when a sync resolver
meets an `AsyncDependency` or vice versa; `scopeValueError` covers the
`ValueError` raises of `get_next_scope` and `BaseScopedResolver.__init__`;
`scopeIndexError` is the `IndexError` from `scopes[0]` on an empty scope
order; `recursionError` models Python stack exhaustion (the fuel of the
embedding); `internalError` marks shapes the source cannot reach. -/
inductive ErrKind where
  | depNotFound (name : Option String) (required : Ty)
  | depTypeMismatch (name : String) (required : Ty) (provided : Ty)
  | factoryTypeError (depName : String)
  | resolverClassMismatch (depName : String)
  | scopeValueError (msg : String)
  | scopeIndexError
  | recursionError
  | internalError
deriving DecidableEq, Repr

/-- Python exception class of each raise site.  Both lookup failures are
plain `LookupError` values in `core.py`. -/
def ErrKind.pyClass : ErrKind → PyExcClass
  | .depNotFound _ _ => .lookupError
  | .depTypeMismatch _ _ _ => .lookupError
  | .factoryTypeError _ => .typeError
  | .resolverClassMismatch _ => .runtimeError
  | .scopeValueError _ => .valueError
  | .scopeIndexError => .indexError
  | .recursionError => .recursionError
  | .internalError => .runtimeError

/-- Whether an `except LookupError` clause catches the exception.
`IndexError` is a `LookupError` subclass in Python. -/
def ErrKind.isLookupError (k : ErrKind) : Bool :=
  match k.pyClass with
  | .lookupError => true
  | .indexError => true
  | _ => false

/-- A raised exception: its kind plus the explicit `__cause__` installed
by a `raise ... from ...` statement. -/
structure Err where
  kind : ErrKind
  cause : Option ErrKind
deriving DecidableEq, Repr

/-- Observable effects of a resolution run: factory invocations with the
keyword arguments passed, and teardown executions (the failing variant
records a teardown whose body raised). -/
inductive Event where
  | invoke (depName : String) (args : List (String × Value))
  | teardown (depName : String)
  | teardownError (depName : String)
deriving DecidableEq, Repr

/-- Global world: the source of fresh object identities and the
chronological event log. -/
structure World where
  nextId : Nat
  log : List Event
deriving DecidableEq, Repr

/-- One teardown action registered on an exit stack by `enter_context`
or `enter_async_context`. -/
structure Finalizer where
  depName : String
  isAsync : Bool
  fails : Bool
deriving DecidableEq, Repr

/-- Per-resolver mutable state: the memoization dictionary
`_resolved_cache` (most recent insertion first) and the finalizer stack
(most recently registered first, as an `ExitStack` unwinds). -/
structure RState where
  cache : List (String × Value)
  finalizers : List Finalizer
deriving DecidableEq, Repr

/-- Dictionary lookup in `container.provides`. -/
def findDep (provides : List (String × Dep)) (n : String) : Option Dep :=
  (provides.find? fun p => p.1 == n).map (·.2)

/-- Cache lookup keyed by the dependency name, as
`self._resolved_cache[dep.name]`. -/
def cacheFind (cache : List (String × Value)) (n : String) : Option Value :=
  (cache.find? fun p => p.1 == n).map (·.2)

/-- Embeds `BaseResolver._lookup_dep`: a missing key raises a not-found
`LookupError`; a found descriptor whose declared type the matcher rejects
raises the mismatch `LookupError`.  A `None` name is never a key of the
string-keyed `provides` mapping, so it takes the not-found branch. -/
def lookupDepBase (c : Container) (look_name : Option String) (look_type : Ty) :
    Except Err Dep :=
  match look_name with
  | none => .error ⟨.depNotFound none look_type, none⟩
  | some n =>
    match findDep c.provides n with
    | none => .error ⟨.depNotFound (some n) look_type, none⟩
    | some dep =>
      if c.types_matcher dep.provides_type look_type then .ok dep
      else .error ⟨.depTypeMismatch n look_type dep.provides_type, none⟩

/-- Embeds `Resolver._lookup_dep`: the base lookup followed by the
`isinstance(dep, Dependency)` guard that raises `RuntimeError` for an
async descriptor reaching the sync resolver. -/
def lookupDepSync (c : Container) (look_name : Option String) (look_type : Ty) :
    Except Err Dep :=
  match lookupDepBase c look_name look_type with
  | .error e => .error e
  | .ok dep =>
    if dep.isAsyncDep then .error ⟨.resolverClassMismatch dep.name, none⟩
    else .ok dep

/-- Embeds `Resolver._create` together with `_create_dependency_sync`:
invoke the factory, register a teardown for a context-manager factory,
then store the produced value in the cache keyed by the dependency name.
Errors are raised before any mutation. -/
def createDepSync (dep : Dep) (args : List (String × Value)) (st : RState)
    (w : World) : Except Err (Value × RState × World) :=
  if dep.isAsyncDep then .error ⟨.resolverClassMismatch dep.name, none⟩
  else
    match dep.factory with
    | .callable =>
      let v := w.nextId
      .ok (v, ⟨(dep.name, v) :: st.cache, st.finalizers⟩,
        ⟨w.nextId + 1, w.log ++ [.invoke dep.name args]⟩)
    | .contextManager =>
      let v := w.nextId
      .ok (v, ⟨(dep.name, v) :: st.cache,
          ⟨dep.name, false, dep.teardownFails⟩ :: st.finalizers⟩,
        ⟨w.nextId + 1, w.log ++ [.invoke dep.name args]⟩)
    | _ => .error ⟨.factoryTypeError dep.name, none⟩

/-- Resolves the keyword arguments of a descriptor in declaration order,
threading state, exactly as the dict comprehension of
`BaseResolver.resolve` does through recursive `self.resolve` calls.  The
resolution function for one sub-dependency is passed in, so the recursion
of `resolveSync` below stays structural in its fuel. -/
def resolveArgsWith
    (res : List RState → World → Option String → Ty →
      Except Err Value × List RState × World) :
    List RState → World → List (String × String × Ty) →
      Except Err (List (String × Value)) × List RState × World
  | states, w, [] => (.ok [], states, w)
  | states, w, (argName, subName, subTy) :: rest =>
    match res states w (some subName) subTy with
    | (.error e, states1, w1) => (.error e, states1, w1)
    | (.ok v, states1, w1) =>
      match resolveArgsWith res states1 w1 rest with
      | (.error e, states2, w2) => (.error e, states2, w2)
      | (.ok vs, states2, w2) => (.ok ((argName, v) :: vs), states2, w2)

/-- Embeds `BaseResolver.resolve` for the synchronous resolver, over a
chain of scoped resolvers: the head container and state belong to the
resolver answering the call, the tail is its `fallback_resolve` chain
(each `_resolve_unknown` is the bound `resolve` of the parent, which in
turn falls back to its own parent).  The steps mirror the source: look
up the descriptor, on a `LookupError` delegate to the fallback when one
exists and re-raise the fallback error with the original as its cause
when the fallback also fails with a `LookupError`; otherwise check the
memoization cache, resolve the sub-dependencies recursively, create the
value and cache it.  The fuel models the Python recursion limit; states
updated before an exception survive it, as Python mutation does. -/
def resolveSync : Nat → List Container → List RState → World →
    Option String → Ty → Except Err Value × List RState × World
  | 0, _, states, w, _, _ => (.error ⟨.recursionError, none⟩, states, w)
  | _ + 1, [], states, w, _, _ => (.error ⟨.internalError, none⟩, states, w)
  | _ + 1, _ :: _, [], w, _, _ => (.error ⟨.internalError, none⟩, [], w)
  | fuel + 1, c :: cs, st :: sts, w, look_name, look_type =>
    match lookupDepSync c look_name look_type with
    | .error exc =>
      if exc.kind.isLookupError then
        match cs, sts with
        | [], _ => (.error exc, st :: sts, w)
        | _ :: _, [] => (.error ⟨.internalError, none⟩, st :: sts, w)
        | c2 :: cs2, s2 :: sts2 =>
          match resolveSync fuel (c2 :: cs2) (s2 :: sts2) w look_name look_type with
          | (.ok v, sts3, w3) => (.ok v, st :: sts3, w3)
          | (.error ru, sts3, w3) =>
            if ru.kind.isLookupError then
              (.error ⟨ru.kind, some exc.kind⟩, st :: sts3, w3)
            else (.error ru, st :: sts3, w3)
      else (.error exc, st :: sts, w)
    | .ok dep =>
      match cacheFind st.cache dep.name with
      | some v => (.ok v, st :: sts, w)
      | none =>
        match resolveArgsWith (resolveSync fuel (c :: cs)) (st :: sts) w
            dep.requires with
        | (.error e, states1, w1) => (.error e, states1, w1)
        | (.ok args, states1, w1) =>
          match states1 with
          | [] => (.error ⟨.internalError, none⟩, states1, w1)
          | st1 :: sts1 =>
            match createDepSync dep args st1 w1 with
            | .error e => (.error e, st1 :: sts1, w1)
            | .ok (v, st2, w2) => (.ok v, st2 :: sts1, w2)

/-- Number of invocations of the factory registered under a dependency
name that the log records. -/
def countInvoke (name : String) (log : List Event) : Nat :=
  (log.filter fun e =>
    match e with
    | .invoke n _ => n == name
    | _ => false).length

/-- Fresh resolver state, as `Resolver.__init__` builds it. -/
def emptyRState : RState := ⟨[], []⟩

/-- Fresh world. -/
def emptyWorld : World := ⟨0, []⟩

/-- Embeds `AsyncResolver._lookup_dep`: the base lookup followed by the
`isinstance(dep, AsyncDependency)` guard. -/
def lookupDepAsync (c : Container) (look_name : Option String) (look_type : Ty) :
    Except Err Dep :=
  match lookupDepBase c look_name look_type with
  | .error e => .error e
  | .ok dep =>
    if dep.isAsyncDep then .ok dep
    else .error ⟨.resolverClassMismatch dep.name, none⟩

/-- Result of calling `AsyncResolver.resolve` without awaiting it: either
the `AwaitableValue` wrapper taken from the cache, or the not-yet-started
coroutine of `AsyncResolver._create` holding the descriptor and the
already-built awaitables for its keyword arguments.  The tree is built
eagerly by the synchronous part of `resolve`; nothing in it has run yet. -/
inductive AsyncComp where
  | settled (v : Value)
  | createComp (dep : Dep) (args : List (String × AsyncComp))

/-- Builds the argument awaitables of a descriptor in declaration order,
as the dict comprehension of `BaseResolver.resolve` does on the async
resolver: each recursive `resolve` call runs synchronously and returns an
awaitable without executing any factory. -/
def asyncPhaseArgsWith (res : Option String → Ty → Except Err AsyncComp) :
    List (String × String × Ty) → Except Err (List (String × AsyncComp))
  | [] => .ok []
  | (argName, subName, subTy) :: rest =>
    match res (some subName) subTy with
    | .error e => .error e
    | .ok comp =>
      match asyncPhaseArgsWith res rest with
      | .error e => .error e
      | .ok restArgs => .ok ((argName, comp) :: restArgs)

/-- Embeds the synchronous part of `AsyncResolver.resolve` for a single
resolver (its `_resolve_unknown` is `None`): look up the descriptor,
return the cached `AwaitableValue` on a hit, otherwise build the
`_create` coroutine over recursively built argument awaitables.  The
cache is only read here; it is written when the coroutine is awaited. -/
def asyncResolvePhase : Nat → Container → List (String × Value) →
    Option String → Ty → Except Err AsyncComp
  | 0, _, _, _, _ => .error ⟨.recursionError, none⟩
  | fuel + 1, c, cache, look_name, look_type =>
    match lookupDepAsync c look_name look_type with
    | .error e => .error e
    | .ok dep =>
      match cacheFind cache dep.name with
      | some v => .ok (.settled v)
      | none =>
        match asyncPhaseArgsWith (asyncResolvePhase fuel c cache)
            dep.requires with
        | .error e => .error e
        | .ok args => .ok (.createComp dep args)

/-- Awaits the argument awaitables of a coroutine in order, as the dict
comprehension of `_create_dependency_async` does, threading state and
accumulating the number of suspensions. -/
def awaitArgsWith
    (aw : AsyncComp → RState → World → Except Err Value × RState × World × Nat) :
    List (String × AsyncComp) → RState → World →
      Except Err (List (String × Value)) × RState × World × Nat
  | [], st, w => (.ok [], st, w, 0)
  | (argName, comp) :: rest, st, w =>
    match aw comp st w with
    | (.error e, st1, w1, k1) => (.error e, st1, w1, k1)
    | (.ok v, st1, w1, k1) =>
      match awaitArgsWith aw rest st1 w1 with
      | (.error e, st2, w2, k2) => (.error e, st2, w2, k1 + k2)
      | (.ok vs, st2, w2, k2) => (.ok ((argName, v) :: vs), st2, w2, k1 + k2)

/-- Awaits an `AsyncResolver` awaitable.  Awaiting an `AwaitableValue`
returns its value without suspending (`utils.AwaitableValue.__await__`
never yields).  Awaiting a `_create` coroutine runs its body: the
`isinstance(dep, AsyncDependency)` guard, then `_create_dependency_async`
(await every argument, then invoke the factory according to its wrapper
class, registering context-manager teardowns on the exit stack), then the
write of `AwaitableValue(value)` into `_resolved_cache[dep.name]`.  The
fourth component counts suspensions; a synchronous factory adds none,
an asynchronous one adds its own suspension count.  The fuel bounds the
recursion depth of nested awaits, mirroring the Python stack. -/
def awaitComp : Nat → AsyncComp → RState → World →
    Except Err Value × RState × World × Nat
  | _, .settled v, st, w => (.ok v, st, w, 0)
  | 0, .createComp _ _, st, w => (.error ⟨.recursionError, none⟩, st, w, 0)
  | fuel + 1, .createComp dep args, st, w =>
    if dep.isAsyncDep then
      match awaitArgsWith (awaitComp fuel) args st w with
      | (.error e, st1, w1, k) => (.error e, st1, w1, k)
      | (.ok vals, st1, w1, k) =>
        match dep.factory with
        | .callable =>
          let v := w1.nextId
          (.ok v, ⟨(dep.name, v) :: st1.cache, st1.finalizers⟩,
            ⟨w1.nextId + 1, w1.log ++ [.invoke dep.name vals]⟩, k)
        | .contextManager =>
          let v := w1.nextId
          (.ok v, ⟨(dep.name, v) :: st1.cache,
              ⟨dep.name, false, dep.teardownFails⟩ :: st1.finalizers⟩,
            ⟨w1.nextId + 1, w1.log ++ [.invoke dep.name vals]⟩, k)
        | .asyncCallable =>
          let v := w1.nextId
          (.ok v, ⟨(dep.name, v) :: st1.cache, st1.finalizers⟩,
            ⟨w1.nextId + 1, w1.log ++ [.invoke dep.name vals]⟩,
            k + dep.factorySuspends)
        | .asyncContextManager =>
          let v := w1.nextId
          (.ok v, ⟨(dep.name, v) :: st1.cache,
              ⟨dep.name, true, dep.teardownFails⟩ :: st1.finalizers⟩,
            ⟨w1.nextId + 1, w1.log ++ [.invoke dep.name vals]⟩,
            k + dep.factorySuspends)
    else (.error ⟨.resolverClassMismatch dep.name, none⟩, st, w, 0)

/-- One full `await resolver.resolve(name, type)` on a single async
resolver: the synchronous phase raises lookup errors immediately; a
returned awaitable is then awaited to completion. -/
def runAsyncResolve (fuel : Nat) (c : Container) (st : RState) (w : World)
    (look_name : Option String) (look_type : Ty) :
    Except Err Value × RState × World × Nat :=
  match asyncResolvePhase fuel c st.cache look_name look_type with
  | .error e => (.error e, st, w, 0)
  | .ok comp => awaitComp fuel comp st w

/-- Event recorded by running one registered teardown action: the
failing variant marks a teardown whose body raised. -/
def finalizerEvent (f : Finalizer) : Event :=
  if f.fails then .teardownError f.depName else .teardown f.depName

/-- Embeds the unwinding of an `ExitStack` or `AsyncExitStack` at scope
exit: teardown actions run one at a time starting from the most recently
registered (the head of the stack), and a raise inside one action does
not stop the remaining actions from running — the stack chains the
exceptions and keeps unwinding, as the `contextlib` documentation
specifies. -/
def runFinalizers : List Finalizer → World → World
  | [], w => w
  | f :: rest, w => runFinalizers rest ⟨w.nextId, w.log ++ [finalizerEvent f]⟩

/-- Body of a `with create_resolver(container) as resolver:` block issuing
a sequence of resolve calls: requests run in order until the first raised
exception escapes the block; mutations made before the raise survive. -/
def runScopeBody (fuel : Nat) (c : Container) :
    List (Option String × Ty) → RState → World → Option Err × RState × World
  | [], st, w => (none, st, w)
  | (n, ty) :: rest, st, w =>
    match resolveSync fuel [c] [st] w n ty with
    | (.error e, states1, w1) =>
      (some e,
        match states1 with
        | st1 :: _ => st1
        | [] => st,
        w1)
    | (.ok _, states1, w1) =>
      match states1 with
      | st1 :: _ => runScopeBody fuel c rest st1 w1
      | [] => (some ⟨.internalError, none⟩, st, w1)

/-- One full resolver scope: run the body, then unconditionally unwind
the guard — `create_resolver` enters `resolver.guard` in a `with`
statement, so the exit stack runs on the success path and on the
exception path alike. -/
def runScope (fuel : Nat) (c : Container) (reqs : List (Option String × Ty)) :
    Option Err × World :=
  match runScopeBody fuel c reqs emptyRState emptyWorld with
  | (e, st, w) => (e, runFinalizers st.finalizers w)

/-- Embeds `utils.get_next_scope`.  Without a parent scope it returns
`scopes[0]` (an `IndexError` on an empty order).  With one, it takes the
first index of the parent in the order (a missing parent raises
`ValueError` chained from the `list.index` failure), and steps to the
next position, raising `ValueError` past the end. -/
def listIndex : List String → String → Option Nat
  | [], _ => none
  | s :: rest, p => if s == p then some 0 else (listIndex rest p).map (· + 1)

/-- See `listIndex`; this is `get_next_scope` itself. -/
def get_next_scope (scopes : List String) (parent_scope : Option String) :
    Except Err String :=
  match parent_scope with
  | none =>
    match scopes with
    | [] => .error ⟨.scopeIndexError, none⟩
    | s :: _ => .ok s
  | some p =>
    match listIndex scopes p with
    | none =>
      .error ⟨.scopeValueError "Parent scope is not valid for given scoped containers",
        some (.scopeValueError "x not in list")⟩
    | some idx =>
      if idx + 1 ≥ scopes.length then
        .error ⟨.scopeValueError "No next scope available for given scoped containers",
          none⟩
      else
        match scopes.get? (idx + 1) with
        | some s => .ok s
        | none => .error ⟨.internalError, none⟩

/-- Embeds the scope bookkeeping of `BaseScopedResolver.__init__`: compute
the next scope from the parent, then reject an explicitly requested scope
that differs from it.  All of this happens while the scope is opened,
before the new resolver serves any resolution. -/
def scopedResolverInit (scopes_order : List String) (parent_scope : Option String)
    (scope : Option String) : Except Err String :=
  match get_next_scope scopes_order parent_scope with
  | .error e => .error e
  | .ok new_scope =>
    match scope with
    | some s =>
      if new_scope ≠ s then
        .error ⟨.scopeValueError "Could not enter given scope", none⟩
      else .ok new_scope
    | none => .ok new_scope

/-- Matcher accepting exactly equal tags, used by concrete scenarios. -/
def eqMatcher : Ty → Ty → Bool := fun a b => a == b

/-- Matcher accepting everything. -/
def anyMatcher : Ty → Ty → Bool := fun _ _ => true

/-- Plain synchronous dependency with no sub-dependencies. -/
def leafDep (n : String) (ty : Ty) : Dep :=
  ⟨n, ty, [], .callable, false, false, 0⟩

/-- Plain synchronous dependency with sub-dependencies. -/
def nodeDep (n : String) (ty : Ty) (reqs : List (String × String × Ty)) : Dep :=
  ⟨n, ty, reqs, .callable, false, false, 0⟩

/-- The diamond container of the claims: `c` requires `a` and `b`, both of
which require `cfg`. -/
def diamondContainer : Container :=
  ⟨[("cfg", leafDep "cfg" 0),
    ("a", nodeDep "a" 1 [("cfg", "cfg", 0)]),
    ("b", nodeDep "b" 2 [("cfg", "cfg", 0)]),
    ("c", nodeDep "c" 3 [("a", "a", 1), ("b", "b", 2)])],
   [], eqMatcher⟩

/-- Asynchronous dependency with no sub-dependencies. -/
def aleafDep (n : String) (ty : Ty) : Dep :=
  ⟨n, ty, [], .asyncCallable, true, false, 0⟩

/-- Asynchronous dependency with sub-dependencies. -/
def anodeDep (n : String) (ty : Ty) (reqs : List (String × String × Ty)) : Dep :=
  ⟨n, ty, reqs, .asyncCallable, true, false, 0⟩

/-- The same diamond registered on the async resolver. -/
def asyncDiamondContainer : Container :=
  ⟨[("cfg", aleafDep "cfg" 0),
    ("a", anodeDep "a" 1 [("cfg", "cfg", 0)]),
    ("b", anodeDep "b" 2 [("cfg", "cfg", 0)]),
    ("c", anodeDep "c" 3 [("a", "a", 1), ("b", "b", 2)])],
   [], eqMatcher⟩

/-- Child registry declaring `a` with type tag 1, matched by tag equality. -/
def mismatchChildContainer : Container := ⟨[("a", leafDep "a" 1)], [], eqMatcher⟩

/-- Parent registry declaring `a` (descriptor name `a_parent`, so its
factory invocation is visible in the log) with type tag 2. -/
def fallbackParentContainer : Container :=
  ⟨[("a", leafDep "a_parent" 2)], [], eqMatcher⟩

/-- Registry with an empty `provides` mapping. -/
def emptyProvidesContainer : Container := ⟨[], [], eqMatcher⟩

/-- Context-manager dependency with no sub-dependencies. -/
def cmDep (n : String) (ty : Ty) (fails : Bool) : Dep :=
  ⟨n, ty, [], .contextManager, false, fails, 0⟩

/-- Registry acquiring resource `x` and then resource `y`; the teardown
of `y` raises. -/
def resourceContainer : Container :=
  ⟨[("x", cmDep "x" 1 false), ("y", cmDep "y" 2 true)], [], eqMatcher⟩

/-- Parent-scope registry declaring `cfg`. -/
def parentScopeContainer : Container := ⟨[("cfg", leafDep "cfg" 0)], [], eqMatcher⟩

/-- Child-scope registry declaring `m`. -/
def childScopeContainer : Container := ⟨[("m", leafDep "m" 4)], [], eqMatcher⟩

/-- Asynchronous dependency whose factory suspends twice before
completing. -/
def suspendingDep : Dep := ⟨"s", 6, [], .asyncCallable, true, false, 2⟩

/-- Registry holding the suspending dependency. -/
def suspendingContainer : Container := ⟨[("s", suspendingDep)], [], eqMatcher⟩

/-- Containers that agree on everything the resolver reads: the resolver
only ever touches `provides` and `types_matcher`. -/
def containersAgree : List Container → List Container → Prop :=
  List.Forall₂ fun a b =>
    a.provides = b.provides ∧ a.types_matcher = b.types_matcher

/-- Registry with an empty `provides` mapping whose `provides_unnamed`
holds a matching descriptor for name `u` and type tag 9. -/
def unnamedOnlyContainer : Container := ⟨[], [leafDep "u" 9], eqMatcher⟩

/-- One Python class as `types_match.py` observes it: its direct bases,
the methods its body defines, and the two flags that the module inspects
— whether the class is a user-defined `Protocol` subclass and whether it
is marked `runtime_checkable`.  Classes are numbered in creation order;
a Python class can only list already-created classes as bases, so in a
well-formed table every base index is smaller than the index of the class
itself. -/
structure PyClassInfo where
  bases : List Nat
  ownMethods : List String
  isProtocol : Bool
  isRuntimeProtocol : Bool

/-- Table of all classes, indexed by creation order. -/
abbrev ClassTable := List PyClassInfo

/-- Fallback for an index outside the table. -/
def defaultClassInfo : PyClassInfo := ⟨[], [], false, false⟩

/-- Class record of an index. -/
def classInfo (tbl : ClassTable) (c : Nat) : PyClassInfo :=
  tbl.getD c defaultClassInfo

/-- Direct bases of a class.  The filter keeps only smaller indices; on
well-formed tables (bases created before the class) it keeps everything
and merely makes the descent visibly well-founded. -/
def directBases (tbl : ClassTable) (c : Nat) : List Nat :=
  (classInfo tbl c).bases.filter (· < c)

/-- Disjunction of a check over a list of base classes. -/
def anySubWith (sf : Nat → Bool) : List Nat → Bool
  | [] => false
  | b :: bs => sf b || anySubWith sf bs

/-- Concatenation of method sets over a list of base classes. -/
def joinMethodsWith (mf : Nat → List String) : List Nat → List String
  | [] => []
  | b :: bs => mf b ++ joinMethodsWith mf bs

/-- Nominal `issubclass` for plain classes: reflexive-transitive descent
through the bases, fuel-bounded (any fuel above the class index is
exact, since the descent strictly decreases the index). -/
def isSubclassF : Nat → ClassTable → Nat → Nat → Bool
  | 0, _, a, b => a == b
  | f + 1, tbl, a, b =>
    a == b || anySubWith (fun p => isSubclassF f tbl p b) (directBases tbl a)

/-- Nominal subclass-or-equal relation between classes. -/
def nominalSubclass (tbl : ClassTable) (a b : Nat) : Bool :=
  isSubclassF (a + 1) tbl a b

/-- Methods available on a class, own and inherited, fuel-bounded. -/
def methodsOfF : Nat → ClassTable → Nat → List String
  | 0, _, _ => []
  | f + 1, tbl, a =>
    (classInfo tbl a).ownMethods ++
      joinMethodsWith (methodsOfF f tbl) (directBases tbl a)

/-- Methods available on a class, own and inherited. -/
def methodsOf (tbl : ClassTable) (a : Nat) : List String :=
  methodsOfF (a + 1) tbl a

/-- Containment of one method list in another. -/
def allMember (xs ys : List String) : Bool :=
  xs.all fun m => ys.contains m

/-- Structural conformance as a runtime-checkable protocol checks it: the
class offers every member of the protocol. -/
def conformsStructurally (tbl : ClassTable) (a r : Nat) : Bool :=
  allMember (methodsOf tbl r) (methodsOf tbl a)

/-- A subscripted generic alias or a plain class: `typing.get_origin`
returns the origin class of the former and `None` for the latter, so the
idiom `get_origin(t) or t` of `types_match.py` yields the origin in the
first case and the class itself in the second. -/
inductive PyType where
  | cls (c : Nat)
  | generic (origin : Nat) (args : List PyType)

/-- The `get_origin(t) or t` stripping of `is_type_acceptable_in_place_of`. -/
def stripToClass : PyType → Nat
  | .cls c => c
  | .generic o _ => o

/-- Python `issubclass` on the fragment the module relies on: against a
plain class (or ABC without hooks) it is the nominal relation; against a
runtime-checkable protocol it is the structural member check; against a
protocol not marked runtime-checkable it raises `TypeError`. -/
def issubclassPy (tbl : ClassTable) (a b : Nat) : Except String Bool :=
  let bi := classInfo tbl b
  if bi.isProtocol then
    if bi.isRuntimeProtocol then .ok (conformsStructurally tbl a b)
    else .error "issubclass requires a runtime checkable protocol"
  else .ok (isSubclassF (a + 1) tbl a b)

/-- Embeds `is_type_acceptable_in_place_of`: strip subscripted generics
to their origins on both sides, then delegate to `issubclass`. -/
def is_type_acceptable_in_place_of (tbl : ClassTable)
    (type_acceptable in_place_of : PyType) : Except String Bool :=
  issubclassPy tbl (stripToClass type_acceptable) (stripToClass in_place_of)

/-- Class table mirroring the shapes of the repository type-checking
tests: index 0 is `Foo` (defines `bar`), 1 is `FooInheritor` (inherits
from `Foo`), 2 is `FooProto` (runtime-checkable protocol with member
`bar`), 3 is `FooABC` (plain nominal abstract class with `bar`), 4 is
`NominalFooABC` (inherits from `FooABC`), 5 is an unrelated empty class. -/
def fooTable : ClassTable :=
  [⟨[], ["bar"], false, false⟩,
   ⟨[0], [], false, false⟩,
   ⟨[], ["bar"], true, true⟩,
   ⟨[], ["bar"], false, false⟩,
   ⟨[3], ["bar"], false, false⟩,
   ⟨[], [], false, false⟩]

/-- The not-found raise of `_lookup_dep` is caught by `except LookupError`. -/
theorem isLookupError_depNotFound (n : Option String) (ty : Ty) :
    (ErrKind.depNotFound n ty).isLookupError = true := rfl

/-- The mismatch raise of `_lookup_dep` is caught by `except LookupError`. -/
theorem isLookupError_depTypeMismatch (n : String) (ty p : Ty) :
    (ErrKind.depTypeMismatch n ty p).isLookupError = true := rfl

/-- Cache lookup immediately after an insertion for the same name hits
the inserted value. -/
theorem cacheFind_cons_self (n : String) (v : Value) (rest : List (String × Value)) :
    cacheFind ((n, v) :: rest) n = some v := by
  simp [cacheFind, List.find?]

/-- A successful sync lookup forces the mismatch branch not taken; spelled
out for rewriting. -/
theorem lookupDepSync_of_found (c : Container) (n : String) (ty : Ty) (dep : Dep)
    (hf : findDep c.provides n = some dep)
    (hm : c.types_matcher dep.provides_type ty = true)
    (hs : dep.isAsyncDep = false) :
    lookupDepSync c (some n) ty = .ok dep := by
  simp [lookupDepSync, lookupDepBase, hf, hm, hs]

/-- A missing key makes the sync lookup raise the not-found `LookupError`. -/
theorem lookupDepSync_of_missing (c : Container) (n : String) (ty : Ty)
    (hf : findDep c.provides n = none) :
    lookupDepSync c (some n) ty = .error ⟨.depNotFound (some n) ty, none⟩ := by
  simp [lookupDepSync, lookupDepBase, hf]

/-- A found descriptor whose declared type the matcher rejects makes the
sync lookup raise the mismatch `LookupError`, regardless of the
descriptor class: the base lookup raises before the `isinstance` guard. -/
theorem lookupDepSync_of_mismatch (c : Container) (n : String) (ty : Ty) (dep : Dep)
    (hf : findDep c.provides n = some dep)
    (hm : c.types_matcher dep.provides_type ty = false) :
    lookupDepSync c (some n) ty =
      .error ⟨.depTypeMismatch n ty dep.provides_type, none⟩ := by
  simp [lookupDepSync, lookupDepBase, hf, hm]

/-- C3 counterexample.  The claim states that when the requested name is
present in the own registry but the matcher rejects the type pair, resolve
raises immediately and the parent resolve is never called.  On the code,
the mismatch is raised as a plain `LookupError`, and the `except
LookupError` clause of `BaseResolver.resolve` catches it and consults
`_resolve_unknown`: here the child declares `a` with type tag 1, the
request asks for tag 2, and resolution nevertheless succeeds through the
parent, whose factory `a_parent` is invoked once. -/
theorem c3_counterexample_fallback_consulted_on_mismatch :
    resolveSync 5 [mismatchChildContainer, fallbackParentContainer]
        [emptyRState, emptyRState] emptyWorld (some "a") 2 =
      (.ok 0, [⟨[], []⟩, ⟨[("a_parent", 0)], []⟩],
        ⟨1, [.invoke "a_parent" []]⟩)
    ∧ countInvoke "a_parent" [.invoke "a_parent" []] = 1 := by
  exact ⟨rfl, by decide⟩

/-- C3 as amended: when the requested name is present but the registry
matcher rejects the pair, `_lookup_dep` raises the type-mismatch error as
a plain `LookupError`; without a fallback it propagates to the caller,
but with a fallback present the resolver treats it exactly like an
absence and consults the fallback — delegation succeeds if the parent
chain can satisfy the request, and a lookup failure of the fallback is
re-raised with the mismatch error installed as its cause. -/
theorem c3_mismatch_is_delegated_to_fallback (fuel : Nat) (c : Container)
    (st : RState) (w : World) (n : String) (ty : Ty) (dep : Dep)
    (h1 : findDep c.provides n = some dep)
    (h2 : c.types_matcher dep.provides_type ty = false) :
    (resolveSync (fuel + 1) [c] [st] w (some n) ty =
      (.error ⟨.depTypeMismatch n ty dep.provides_type, none⟩, [st], w))
    ∧ (∀ (c2 : Container) (cs2 : List Container) (s2 : RState)
        (sts2 : List RState) (v : Value) (sts3 : List RState) (w3 : World),
        resolveSync fuel (c2 :: cs2) (s2 :: sts2) w (some n) ty =
          (.ok v, sts3, w3) →
        resolveSync (fuel + 1) (c :: c2 :: cs2) (st :: s2 :: sts2) w
          (some n) ty = (.ok v, st :: sts3, w3))
    ∧ (∀ (c2 : Container) (cs2 : List Container) (s2 : RState)
        (sts2 : List RState) (ru : Err) (sts3 : List RState) (w3 : World),
        resolveSync fuel (c2 :: cs2) (s2 :: sts2) w (some n) ty =
          (.error ru, sts3, w3) →
        ru.kind.isLookupError = true →
        resolveSync (fuel + 1) (c :: c2 :: cs2) (st :: s2 :: sts2) w
          (some n) ty =
          (.error ⟨ru.kind, some (.depTypeMismatch n ty dep.provides_type)⟩,
            st :: sts3, w3)) := by
  refine ⟨?_, ?_, ?_⟩
  · simp only [resolveSync, lookupDepSync_of_mismatch c n ty dep h1 h2,
      isLookupError_depTypeMismatch, if_true]
  · intro c2 cs2 s2 sts2 v sts3 w3 hfb
    simp only [resolveSync, lookupDepSync_of_mismatch c n ty dep h1 h2, hfb,
      isLookupError_depTypeMismatch, if_true]
  · intro c2 cs2 s2 sts2 ru sts3 w3 hfb hru
    simp only [resolveSync, lookupDepSync_of_mismatch c n ty dep h1 h2, hfb,
      isLookupError_depTypeMismatch, if_true, hru]

/-- C3 witness: the amended statement exercised on the concrete two-level
chain, covering the propagation case, the recovering delegation case and
the doubly failing case. -/
theorem c3_mismatch_is_delegated_to_fallback_witness :
    (resolveSync 5 [mismatchChildContainer] [emptyRState] emptyWorld
        (some "a") 2 =
      (.error ⟨.depTypeMismatch "a" 2 1, none⟩, [emptyRState], emptyWorld))
    ∧ (resolveSync 5 [mismatchChildContainer, fallbackParentContainer]
        [emptyRState, emptyRState] emptyWorld (some "a") 2 =
      (.ok 0, [emptyRState, ⟨[("a_parent", 0)], []⟩],
        ⟨1, [.invoke "a_parent" []]⟩))
    ∧ (resolveSync 5 [mismatchChildContainer, emptyProvidesContainer]
        [emptyRState, emptyRState] emptyWorld (some "a") 2 =
      (.error ⟨.depNotFound (some "a") 2, some (.depTypeMismatch "a" 2 1)⟩,
        [emptyRState, emptyRState], emptyWorld)) := by
  obtain ⟨hprop, hok, herr⟩ :=
    c3_mismatch_is_delegated_to_fallback 4 mismatchChildContainer emptyRState
      emptyWorld "a" 2 (leafDep "a" 1) rfl rfl
  refine ⟨hprop, ?_, ?_⟩
  · exact hok fallbackParentContainer [] emptyRState [] 0
      [⟨[("a_parent", 0)], []⟩] ⟨1, [.invoke "a_parent" []]⟩ rfl
  · exact herr emptyProvidesContainer [] emptyRState []
      ⟨.depNotFound (some "a") 2, none⟩ [emptyRState] emptyWorld rfl rfl

/-- C4 counterexample.  The claim states that when the name is absent from
the own registry and the fallback also fails with a lookup error, the
error surfaced to the caller is the original lookup error of the scope
where resolution began.  The source executes `raise ru_exc from exc`,
which surfaces the fallback error: here the child does not declare `a`
(original error: not-found), the parent declares it with a mismatching
type (fallback error: type mismatch), and the error surfaced is the
mismatch of the fallback — a different error from the original not-found,
which is only attached as the cause. -/
theorem c4_counterexample_fallback_error_surfaced :
    (resolveSync 5 [emptyProvidesContainer, mismatchChildContainer]
        [emptyRState, emptyRState] emptyWorld (some "a") 2).1 =
      .error ⟨.depTypeMismatch "a" 2 1, some (.depNotFound (some "a") 2)⟩
    ∧ (ErrKind.depTypeMismatch "a" 2 1) ≠ (.depNotFound (some "a") 2) := by
  exact ⟨rfl, by decide⟩

/-- C4 as amended: when the requested name is absent from the own
registry, a fallback is present and the fallback fails with a lookup
error, the error surfaced to the caller of resolve is the one produced by
the fallback, with the original not-found error of the scope where
resolution began attached as its cause. -/
theorem c4_fallback_error_surfaced_with_original_cause (fuel : Nat)
    (c : Container) (st : RState) (w : World) (n : String) (ty : Ty)
    (c2 : Container) (cs2 : List Container) (s2 : RState) (sts2 : List RState)
    (ru : Err) (sts3 : List RState) (w3 : World)
    (h1 : findDep c.provides n = none)
    (hfb : resolveSync fuel (c2 :: cs2) (s2 :: sts2) w (some n) ty =
      (.error ru, sts3, w3))
    (hru : ru.kind.isLookupError = true) :
    resolveSync (fuel + 1) (c :: c2 :: cs2) (st :: s2 :: sts2) w (some n) ty =
      (.error ⟨ru.kind, some (.depNotFound (some n) ty)⟩, st :: sts3, w3) := by
  simp only [resolveSync, lookupDepSync_of_missing c n ty h1, hfb,
    isLookupError_depNotFound, if_true, hru]

/-- C4 witness: the amended statement at the concrete chain of the
counterexample. -/
theorem c4_fallback_error_surfaced_with_original_cause_witness :
    resolveSync 5 [emptyProvidesContainer, mismatchChildContainer]
        [emptyRState, emptyRState] emptyWorld (some "a") 2 =
      (.error ⟨.depTypeMismatch "a" 2 1, some (.depNotFound (some "a") 2)⟩,
        [emptyRState, emptyRState], emptyWorld) :=
  c4_fallback_error_surfaced_with_original_cause 4 emptyProvidesContainer
    emptyRState emptyWorld "a" 2 mismatchChildContainer [] emptyRState []
    ⟨.depTypeMismatch "a" 2 1, none⟩ [emptyRState] emptyWorld rfl rfl rfl

/-- C9 counterexample.  The claim states that the not-found failure and
the type-mismatch failure are distinguishable error types to the caller.
In `core.py` both raise sites of `BaseResolver._lookup_dep` construct a
plain `LookupError`, so the two failures reach the caller as the same
Python exception class, distinguishable only by message content: here an
unregistered name and a mismatching registration produce errors whose
exception classes coincide. -/
theorem c9_counterexample_same_exception_class :
    (resolveSync 3 [emptyProvidesContainer] [emptyRState] emptyWorld
        (some "missing") 7).1 =
      .error ⟨.depNotFound (some "missing") 7, none⟩
    ∧ (resolveSync 3 [mismatchChildContainer] [emptyRState] emptyWorld
        (some "a") 2).1 =
      .error ⟨.depTypeMismatch "a" 2 1, none⟩
    ∧ ErrKind.pyClass (.depNotFound (some "missing") 7) =
        ErrKind.pyClass (.depTypeMismatch "a" 2 1) := by
  exact ⟨rfl, rfl, by decide⟩

/-- C9 as amended: an unregistered name makes resolve raise a not-found
error carrying the requested name and required type, and a registered
name with an incompatible declared type makes it raise a type-mismatch
error carrying the name, the requested type and the declared type — but
both are raised as the same Python exception class `LookupError`, so the
caller can tell the two failure kinds apart only by the carried data, not
by the exception type. -/
theorem c9_lookup_failures_carry_data_but_share_class (fuel : Nat)
    (c : Container) (st : RState) (w : World) (n : String) (ty : Ty)
    (dep : Dep) :
    (findDep c.provides n = none →
      resolveSync (fuel + 1) [c] [st] w (some n) ty =
        (.error ⟨.depNotFound (some n) ty, none⟩, [st], w))
    ∧ (findDep c.provides n = some dep →
        c.types_matcher dep.provides_type ty = false →
        resolveSync (fuel + 1) [c] [st] w (some n) ty =
          (.error ⟨.depTypeMismatch n ty dep.provides_type, none⟩, [st], w))
    ∧ ErrKind.pyClass (.depNotFound (some n) ty) = .lookupError
    ∧ ErrKind.pyClass (.depTypeMismatch n ty dep.provides_type) = .lookupError := by
  refine ⟨?_, ?_, rfl, rfl⟩
  · intro h1
    simp only [resolveSync, lookupDepSync_of_missing c n ty h1,
      isLookupError_depNotFound, if_true]
  · intro h1 h2
    simp only [resolveSync, lookupDepSync_of_mismatch c n ty dep h1 h2,
      ErrKind.isLookupError, ErrKind.pyClass, if_true]

/-- C9 witness: both failure kinds produced concretely through the
amended statement. -/
theorem c9_lookup_failures_witness :
    (resolveSync 3 [emptyProvidesContainer] [emptyRState] emptyWorld
        (some "missing") 7 =
      (.error ⟨.depNotFound (some "missing") 7, none⟩, [emptyRState],
        emptyWorld))
    ∧ (resolveSync 3 [mismatchChildContainer] [emptyRState] emptyWorld
        (some "a") 2 =
      (.error ⟨.depTypeMismatch "a" 2 1, none⟩, [emptyRState], emptyWorld)) := by
  obtain ⟨hnf, _, _, _⟩ :=
    c9_lookup_failures_carry_data_but_share_class 2 emptyProvidesContainer
      emptyRState emptyWorld "missing" 7 (leafDep "a" 1)
  obtain ⟨_, hmm, _, _⟩ :=
    c9_lookup_failures_carry_data_but_share_class 2 mismatchChildContainer
      emptyRState emptyWorld "a" 2 (leafDep "a" 1)
  exact ⟨hnf rfl, hmm rfl rfl⟩

/-- An index returned by `listIndex` addresses an element of the list. -/
theorem listIndex_lt_length (scopes : List String) (p : String) (k : Nat)
    (h : listIndex scopes p = some k) : k < scopes.length := by
  induction scopes generalizing k with
  | nil => simp [listIndex] at h
  | cons s rest ih =>
    by_cases hs : s == p
    · simp [listIndex, hs] at h
      simp only [List.length_cons]
      omega
    · simp only [listIndex, hs, Bool.false_eq_true, if_false] at h
      match hrec : listIndex rest p with
      | none => rw [hrec] at h; simp at h
      | some k0 =>
        rw [hrec] at h
        simp at h
        have := ih k0 hrec
        simp [List.length_cons]
        omega

/-- C7: a scoped resolver created without a parent is placed at the first
scope of `scopes_order`, and requesting any other scope there is rejected;
a resolver chained from a parent found at position `k` advances exactly
to position `k + 1`, whether that scope is requested explicitly or left
implicit, while requesting any other scope raises a `ValueError`;
advancing past the end of `scopes_order` raises a `ValueError`; and a
parent whose scope is not in `scopes_order` raises a `ValueError` chained
from the `list.index` failure.  All of these checks happen inside
`BaseScopedResolver.__init__`, at scope-open time, before the new
resolver can serve any resolution. -/
theorem c7_scope_transitions (s0 : String) (rest : List String)
    (scopes : List String) (p r next : String) (k : Nat) :
    (scopedResolverInit (s0 :: rest) none none = .ok s0)
    ∧ (r ≠ s0 → scopedResolverInit (s0 :: rest) none (some r) =
        .error ⟨.scopeValueError "Could not enter given scope", none⟩)
    ∧ (listIndex scopes p = some k → scopes.get? (k + 1) = some next →
        scopedResolverInit scopes (some p) none = .ok next
        ∧ scopedResolverInit scopes (some p) (some next) = .ok next
        ∧ (r ≠ next → scopedResolverInit scopes (some p) (some r) =
            .error ⟨.scopeValueError "Could not enter given scope", none⟩))
    ∧ (listIndex scopes p = some k → k + 1 ≥ scopes.length →
        scopedResolverInit scopes (some p) none =
          .error ⟨.scopeValueError
            "No next scope available for given scoped containers", none⟩)
    ∧ (listIndex scopes p = none →
        scopedResolverInit scopes (some p) none =
          .error ⟨.scopeValueError
            "Parent scope is not valid for given scoped containers",
            some (.scopeValueError "x not in list")⟩) := by
  refine ⟨?_, ?_, ?_, ?_, ?_⟩
  · simp [scopedResolverInit, get_next_scope]
  · intro hr
    simp [scopedResolverInit, get_next_scope, Ne.symm hr]
  · intro hk hget
    obtain ⟨hlt, -⟩ := List.get?_eq_some.mp hget
    have hget2 : scopes[k + 1]? = some next := by
      simpa [List.get?_eq_getElem?] using hget
    have hnext : get_next_scope scopes (some p) = .ok next := by
      simp [get_next_scope, hk, Nat.not_le_of_lt hlt, hget2]
    refine ⟨?_, ?_, ?_⟩
    · simp [scopedResolverInit, hnext]
    · simp [scopedResolverInit, hnext]
    · intro hr
      simp [scopedResolverInit, hnext, Ne.symm hr]
  · intro hk hge
    simp [scopedResolverInit, get_next_scope, hk, hge]
  · intro hk
    simp [scopedResolverInit, get_next_scope, hk]

/-- C7 witness: the three-level order `root`, `app`, `handler` exercised
through every branch of the statement. -/
theorem c7_scope_transitions_witness :
    (scopedResolverInit ["root", "app", "handler"] none none = .ok "root")
    ∧ (scopedResolverInit ["root", "app", "handler"] none (some "app") =
        .error ⟨.scopeValueError "Could not enter given scope", none⟩)
    ∧ (scopedResolverInit ["root", "app", "handler"] (some "root") none =
        .ok "app")
    ∧ (scopedResolverInit ["root", "app", "handler"] (some "root") (some "app") =
        .ok "app")
    ∧ (scopedResolverInit ["root", "app", "handler"] (some "root")
        (some "handler") =
        .error ⟨.scopeValueError "Could not enter given scope", none⟩)
    ∧ (scopedResolverInit ["root", "app", "handler"] (some "handler") none =
        .error ⟨.scopeValueError
          "No next scope available for given scoped containers", none⟩)
    ∧ (scopedResolverInit ["root", "app", "handler"] (some "absent") none =
        .error ⟨.scopeValueError
          "Parent scope is not valid for given scoped containers",
          some (.scopeValueError "x not in list")⟩) := by
  obtain ⟨h1, h2, h3, -, -⟩ :=
    c7_scope_transitions "root" ["app", "handler"] ["root", "app", "handler"]
      "root" "app" "app" 0
  obtain ⟨h3a, h3b, -⟩ := h3 rfl rfl
  obtain ⟨-, -, h3x, -, -⟩ :=
    c7_scope_transitions "root" ["app", "handler"] ["root", "app", "handler"]
      "root" "handler" "app" 0
  obtain ⟨-, -, -, h4, -⟩ :=
    c7_scope_transitions "root" ["app", "handler"] ["root", "app", "handler"]
      "handler" "app" "app" 2
  obtain ⟨-, -, -, -, h5⟩ :=
    c7_scope_transitions "root" ["app", "handler"] ["root", "app", "handler"]
      "absent" "app" "app" 0
  exact ⟨h1, h2 (by decide), h3a, h3b,
    (h3x rfl rfl).2.2 (by decide), h4 rfl (by decide), h5 rfl⟩

/-- A successful sync lookup can only deliver a synchronous descriptor. -/
theorem lookupDepSync_ok_not_async (c : Container) (n : Option String) (ty : Ty)
    (dep : Dep) (h : lookupDepSync c n ty = .ok dep) : dep.isAsyncDep = false := by
  unfold lookupDepSync at h
  match hb : lookupDepBase c n ty with
  | .error e => rw [hb] at h; exact absurd h (by simp)
  | .ok dep0 =>
    rw [hb] at h
    by_cases ha : dep0.isAsyncDep
    · simp [ha] at h
    · simp [ha] at h
      rw [← h]
      simp [ha]

/-- Unwinding the exit stack appends one teardown event per registered
action, in stack order, whatever the fails flags are. -/
theorem runFinalizers_events (fs : List Finalizer) (w : World) :
    runFinalizers fs w = ⟨w.nextId, w.log ++ fs.map finalizerEvent⟩ := by
  induction fs generalizing w with
  | nil => simp [runFinalizers]
  | cons f rest ih =>
    simp [runFinalizers, ih, List.append_assoc]

/-- Resolving a context-manager dependency with no sub-dependencies from
a cache miss: the factory runs once, the produced value is cached and the
teardown is pushed onto the finalizer stack. -/
theorem resolveSync_contextManager_step (fuel : Nat) (c : Container)
    (st : RState) (w : World) (n : String) (ty : Ty) (dep : Dep)
    (h1 : lookupDepSync c (some n) ty = .ok dep)
    (h2 : dep.factory = .contextManager)
    (h3 : dep.requires = [])
    (h4 : cacheFind st.cache dep.name = none) :
    resolveSync (fuel + 1) [c] [st] w (some n) ty =
      (.ok w.nextId,
        [⟨(dep.name, w.nextId) :: st.cache,
          ⟨dep.name, false, dep.teardownFails⟩ :: st.finalizers⟩],
        ⟨w.nextId + 1, w.log ++ [.invoke dep.name []]⟩) := by
  have ha := lookupDepSync_ok_not_async c (some n) ty dep h1
  simp only [resolveSync, h1, h4, h3, resolveArgsWith, createDepSync, ha,
    Bool.false_eq_true, if_false, h2]

/-- C5: scope exit runs every registered teardown.  First conjunct: the
guard exit appends exactly one teardown event per registered finalizer,
in stack order — the reverse of registration order — and a failing
teardown action (its event is the failing variant) does not prevent the
remaining actions from running, since the events of all later stack
entries still follow it.  Second and third conjuncts: acquiring resource
X and then resource Y in the same scope pushes the teardown of Y on top
of that of X, so on exit the teardown of Y runs before the teardown of X,
followed by everything registered earlier.  Fourth conjunct: a scope run
always ends by unwinding the stack that the body built — the same
equation holds when the body left an in-flight error, so exit due to an
error releases exactly as normal completion does. -/
theorem c5_finalizers_reverse_order_total (fuel fuel2 : Nat) (c : Container)
    (st : RState) (w : World) (nx ny : String) (tx ty2 : Ty) (depx depy : Dep)
    (fs : List Finalizer) (w0 : World) (reqs : List (Option String × Ty))
    (hx : lookupDepSync c (some nx) tx = .ok depx)
    (hkx : depx.factory = .contextManager)
    (hrx : depx.requires = [])
    (hmx : cacheFind st.cache depx.name = none)
    (hy : lookupDepSync c (some ny) ty2 = .ok depy)
    (hky : depy.factory = .contextManager)
    (hry : depy.requires = [])
    (hmy : cacheFind ((depx.name, w.nextId) :: st.cache) depy.name = none) :
    (runFinalizers fs w0 = ⟨w0.nextId, w0.log ++ fs.map finalizerEvent⟩)
    ∧ (resolveSync (fuel + 1) [c] [st] w (some nx) tx =
        (.ok w.nextId,
          [⟨(depx.name, w.nextId) :: st.cache,
            ⟨depx.name, false, depx.teardownFails⟩ :: st.finalizers⟩],
          ⟨w.nextId + 1, w.log ++ [.invoke depx.name []]⟩))
    ∧ (resolveSync (fuel2 + 1) [c]
        [⟨(depx.name, w.nextId) :: st.cache,
          ⟨depx.name, false, depx.teardownFails⟩ :: st.finalizers⟩]
        ⟨w.nextId + 1, w.log ++ [.invoke depx.name []]⟩ (some ny) ty2 =
        (.ok (w.nextId + 1),
          [⟨(depy.name, w.nextId + 1) :: (depx.name, w.nextId) :: st.cache,
            ⟨depy.name, false, depy.teardownFails⟩ ::
              ⟨depx.name, false, depx.teardownFails⟩ :: st.finalizers⟩],
          ⟨w.nextId + 2,
            (w.log ++ [.invoke depx.name []]) ++ [.invoke depy.name []]⟩))
    ∧ (runFinalizers
        (⟨depy.name, false, depy.teardownFails⟩ ::
          ⟨depx.name, false, depx.teardownFails⟩ :: st.finalizers) w0 =
        ⟨w0.nextId,
          w0.log ++ (finalizerEvent ⟨depy.name, false, depy.teardownFails⟩ ::
            finalizerEvent ⟨depx.name, false, depx.teardownFails⟩ ::
            st.finalizers.map finalizerEvent)⟩)
    ∧ (runScope fuel c reqs =
        ((runScopeBody fuel c reqs emptyRState emptyWorld).1,
          ⟨(runScopeBody fuel c reqs emptyRState emptyWorld).2.2.nextId,
            (runScopeBody fuel c reqs emptyRState emptyWorld).2.2.log ++
              ((runScopeBody fuel c reqs emptyRState
                emptyWorld).2.1.finalizers).map finalizerEvent⟩)) := by
  refine ⟨runFinalizers_events fs w0, ?_, ?_, ?_, ?_⟩
  · exact resolveSync_contextManager_step fuel c st w nx tx depx hx hkx hrx hmx
  · exact resolveSync_contextManager_step fuel2 c _ _ ny ty2 depy hy hky hry hmy
  · rw [runFinalizers_events]
    simp
  · have hdef : runScope fuel c reqs =
        ((runScopeBody fuel c reqs emptyRState emptyWorld).1,
          runFinalizers
            (runScopeBody fuel c reqs emptyRState emptyWorld).2.1.finalizers
            (runScopeBody fuel c reqs emptyRState emptyWorld).2.2) := rfl
    rw [hdef, runFinalizers_events]

/-- C5 witness: acquiring `x` then `y` in one scope and exiting — also
through an in-flight not-found error — runs the failing teardown of `y`
first and still runs the teardown of `x` afterwards. -/
theorem c5_finalizers_reverse_order_total_witness :
    (resolveSync 3 [resourceContainer] [emptyRState] emptyWorld (some "x") 1 =
      (.ok 0, [⟨[("x", 0)], [⟨"x", false, false⟩]⟩],
        ⟨1, [.invoke "x" []]⟩))
    ∧ (resolveSync 3 [resourceContainer] [⟨[("x", 0)], [⟨"x", false, false⟩]⟩]
        ⟨1, [.invoke "x" []]⟩ (some "y") 2 =
      (.ok 1, [⟨[("y", 1), ("x", 0)], [⟨"y", false, true⟩, ⟨"x", false, false⟩]⟩],
        ⟨2, [.invoke "x" [], .invoke "y" []]⟩))
    ∧ (runFinalizers [⟨"y", false, true⟩, ⟨"x", false, false⟩]
        ⟨2, [.invoke "x" [], .invoke "y" []]⟩ =
      ⟨2, [.invoke "x" [], .invoke "y" [], .teardownError "y", .teardown "x"]⟩)
    ∧ (runScope 3 resourceContainer
        [(some "x", 1), (some "y", 2), (some "missing", 5)] =
      (some ⟨.depNotFound (some "missing") 5, none⟩,
        ⟨2, [.invoke "x" [], .invoke "y" [], .teardownError "y",
          .teardown "x"]⟩)) := by
  obtain ⟨-, h2, h3, h4, h5⟩ :=
    c5_finalizers_reverse_order_total 2 2 resourceContainer emptyRState
      emptyWorld "x" "y" 1 2 (cmDep "x" 1 false) (cmDep "y" 2 true)
      [⟨"y", false, true⟩, ⟨"x", false, false⟩]
      ⟨2, [.invoke "x" [], .invoke "y" []]⟩
      [(some "x", 1), (some "y", 2), (some "missing", 5)]
      rfl rfl rfl rfl rfl rfl rfl rfl
  exact ⟨h2, h3, h4, h5⟩

/-- Creating a value never decreases the fresh-identity counter. -/
theorem createDepSync_nextId_mono (dep : Dep) (args : List (String × Value))
    (st : RState) (w : World) (v : Value) (st2 : RState) (w2 : World)
    (h : createDepSync dep args st w = .ok (v, st2, w2)) :
    w.nextId ≤ w2.nextId ∧ v = w.nextId ∧ w2.nextId = w.nextId + 1 := by
  unfold createDepSync at h
  by_cases ha : dep.isAsyncDep
  · simp [ha] at h
  · simp only [ha, Bool.false_eq_true, if_false] at h
    cases hk : dep.factory <;> rw [hk] at h <;> simp at h
    · obtain ⟨hv, -, hw⟩ := h
      subst hw
      exact ⟨Nat.le_succ _, hv.symm, rfl⟩
    · obtain ⟨hv, -, hw⟩ := h
      subst hw
      exact ⟨Nat.le_succ _, hv.symm, rfl⟩

/-- Argument resolution never decreases the fresh-identity counter when
the per-dependency resolution function does not. -/
theorem resolveArgsWith_nextId_mono
    (res : List RState → World → Option String → Ty →
      Except Err Value × List RState × World)
    (hres : ∀ sts w n ty, w.nextId ≤ (res sts w n ty).2.2.nextId) :
    ∀ (reqs : List (String × String × Ty)) (sts : List RState) (w : World),
      w.nextId ≤ (resolveArgsWith res sts w reqs).2.2.nextId := by
  intro reqs
  induction reqs with
  | nil => intro sts w; simp [resolveArgsWith]
  | cons r rest ih =>
    intro sts w
    obtain ⟨argName, subName, subTy⟩ := r
    simp only [resolveArgsWith]
    split
    · rename_i e sts1 w1 heq
      have h1 := hres sts w (some subName) subTy
      rw [heq] at h1
      exact h1
    · rename_i v sts1 w1 heq
      have h1 := hres sts w (some subName) subTy
      rw [heq] at h1
      split
      · rename_i e sts2 w2 heq2
        have h2 := ih sts1 w1
        rw [heq2] at h2
        exact le_trans h1 h2
      · rename_i vs sts2 w2 heq2
        have h2 := ih sts1 w1
        rw [heq2] at h2
        exact le_trans h1 h2

/-- Resolution never decreases the fresh-identity counter. -/
theorem resolveSync_nextId_mono :
    ∀ (fuel : Nat) (cs : List Container) (sts : List RState) (w : World)
      (n : Option String) (ty : Ty),
      w.nextId ≤ (resolveSync fuel cs sts w n ty).2.2.nextId := by
  intro fuel
  induction fuel with
  | zero => intro cs sts w n ty; simp [resolveSync]
  | succ fuel ih =>
    intro cs sts w n ty
    cases cs with
    | nil => simp [resolveSync]
    | cons c cs =>
      cases sts with
      | nil => simp [resolveSync]
      | cons st sts =>
        simp only [resolveSync]
        split
        · rename_i exc heq
          split
          · split
            · exact Nat.le_refl _
            · exact Nat.le_refl _
            · rename_i c2 cs2 s2 sts2
              split
              · rename_i v sts3 w3 heq2
                have h1 := ih (c2 :: cs2) (s2 :: sts2) w n ty
                rw [heq2] at h1
                exact h1
              · rename_i ru sts3 w3 heq2
                have h1 := ih (c2 :: cs2) (s2 :: sts2) w n ty
                rw [heq2] at h1
                split
                · exact h1
                · exact h1
          · exact Nat.le_refl _
        · rename_i dep heq
          split
          · exact Nat.le_refl _
          · have hargs := resolveArgsWith_nextId_mono
              (resolveSync fuel (c :: cs))
              (fun sts w n ty => ih (c :: cs) sts w n ty)
              dep.requires (st :: sts) w
            split
            · rename_i e sts1 w1 heq2
              rw [heq2] at hargs
              exact hargs
            · rename_i args sts1 w1 heq2
              rw [heq2] at hargs
              split
              · exact hargs
              · rename_i st1 sts1x
                split
                · rename_i e heq3
                  exact hargs
                · rename_i v st2 w2 heq3
                  have h2 := (createDepSync_nextId_mono dep args st1 w1
                    v st2 w2 heq3).1
                  exact le_trans hargs h2

/-- Cache hit: a resolver whose cache already holds the dependency name
returns the memoized value and changes nothing. -/
theorem resolveSync_cache_hit (fuel : Nat) (c : Container) (cs : List Container)
    (st : RState) (sts : List RState) (w : World) (n : Option String) (ty : Ty)
    (dep : Dep) (v : Value)
    (h1 : lookupDepSync c n ty = .ok dep)
    (hc : cacheFind st.cache dep.name = some v) :
    resolveSync (fuel + 1) (c :: cs) (st :: sts) w n ty = (.ok v, st :: sts, w) := by
  simp only [resolveSync, h1, hc]

/-- Cache miss on a plain-callable descriptor: the sub-dependencies are
resolved, the factory is invoked once on them, and the fresh value is
cached at this resolver before being returned. -/
theorem resolveSync_create_callable (fuel : Nat) (c : Container)
    (cs : List Container) (st : RState) (sts : List RState) (w : World)
    (n : String) (ty : Ty) (dep : Dep) (args : List (String × Value))
    (st1 : RState) (sts1 : List RState) (wA : World)
    (h1 : lookupDepSync c (some n) ty = .ok dep)
    (h2 : dep.factory = .callable)
    (h4 : cacheFind st.cache dep.name = none)
    (hargs : resolveArgsWith (resolveSync fuel (c :: cs)) (st :: sts) w
      dep.requires = (.ok args, st1 :: sts1, wA)) :
    resolveSync (fuel + 1) (c :: cs) (st :: sts) w (some n) ty =
      (.ok wA.nextId,
        ⟨(dep.name, wA.nextId) :: st1.cache, st1.finalizers⟩ :: sts1,
        ⟨wA.nextId + 1, wA.log ++ [.invoke dep.name args]⟩) := by
  have ha := lookupDepSync_ok_not_async c (some n) ty dep h1
  simp only [resolveSync, h1, h4, hargs, createDepSync, ha,
    Bool.false_eq_true, if_false, h2]

/-- Name absent from the own registry with a fallback that succeeds: the
resolver delegates and passes the fallback value through, leaving its own
state untouched. -/
theorem resolveSync_fallback_ok (fuel : Nat) (c : Container) (st : RState)
    (w : World) (n : String) (ty : Ty) (c2 : Container) (cs2 : List Container)
    (s2 : RState) (sts2 : List RState) (v : Value) (sts3 : List RState)
    (w3 : World)
    (h1 : findDep c.provides n = none)
    (hfb : resolveSync fuel (c2 :: cs2) (s2 :: sts2) w (some n) ty =
      (.ok v, sts3, w3)) :
    resolveSync (fuel + 1) (c :: c2 :: cs2) (st :: s2 :: sts2) w (some n) ty =
      (.ok v, st :: sts3, w3) := by
  simp only [resolveSync, lookupDepSync_of_missing c n ty h1, hfb,
    isLookupError_depNotFound, if_true]

/-- C6: in a chain of scoped resolvers, a name absent from the child
registry but declared in the parent registry is constructed and cached in
the parent resolver cache — the child state comes back untouched (first
conjunct); a sibling child scope opened over the same parent then
observes the identical memoized instance, with no new factory invocation
and no state change at all (second conjunct); by contrast, a name
declared in the child registry itself is constructed anew by each
independently opened child scope (third and fourth conjuncts), and the
two instances are distinct objects (fifth conjunct). -/
theorem c6_ancestor_caching_and_descendant_distinctness
    (fuel : Nat) (cChild cParent : Container) (stC stP : RState) (w : World)
    (n : String) (ty : Ty) (dep : Dep) (args : List (String × Value))
    (stPA : RState) (wA : World)
    (m : String) (tym : Ty) (depm : Dep) (f1 f2 : Nat)
    (stA0 spA0 : RState) (w1 : World) (argsA : List (String × Value))
    (stA1 : RState) (stsA1 : List RState) (w1A : World)
    (stB0 spB0 : RState) (argsB : List (String × Value))
    (stB1 : RState) (stsB1 : List RState) (w2A : World)
    (hmiss : findDep cChild.provides n = none)
    (hparent : lookupDepSync cParent (some n) ty = .ok dep)
    (hkind : dep.factory = .callable)
    (hpmiss : cacheFind stP.cache dep.name = none)
    (hargs : resolveArgsWith (resolveSync fuel [cParent]) [stP] w
      dep.requires = (.ok args, [stPA], wA))
    (hmA : lookupDepSync cChild (some m) tym = .ok depm)
    (hkA : depm.factory = .callable)
    (hcA : cacheFind stA0.cache depm.name = none)
    (hargsA : resolveArgsWith (resolveSync f1 [cChild, cParent])
      [stA0, spA0] w1 depm.requires = (.ok argsA, stA1 :: stsA1, w1A))
    (hcB : cacheFind stB0.cache depm.name = none)
    (hargsB : resolveArgsWith (resolveSync f2 [cChild, cParent])
      [stB0, spB0] ⟨w1A.nextId + 1, w1A.log ++ [.invoke depm.name argsA]⟩
      depm.requires = (.ok argsB, stB1 :: stsB1, w2A)) :
    (resolveSync (fuel + 1 + 1) [cChild, cParent] [stC, stP] w (some n) ty =
      (.ok wA.nextId,
        [stC, ⟨(dep.name, wA.nextId) :: stPA.cache, stPA.finalizers⟩],
        ⟨wA.nextId + 1, wA.log ++ [.invoke dep.name args]⟩))
    ∧ (∀ (g : Nat) (stC2 : RState),
        resolveSync (g + 1 + 1) [cChild, cParent]
          [stC2, ⟨(dep.name, wA.nextId) :: stPA.cache, stPA.finalizers⟩]
          ⟨wA.nextId + 1, wA.log ++ [.invoke dep.name args]⟩ (some n) ty =
        (.ok wA.nextId,
          [stC2, ⟨(dep.name, wA.nextId) :: stPA.cache, stPA.finalizers⟩],
          ⟨wA.nextId + 1, wA.log ++ [.invoke dep.name args]⟩))
    ∧ (resolveSync (f1 + 1) [cChild, cParent] [stA0, spA0] w1 (some m) tym =
        (.ok w1A.nextId,
          ⟨(depm.name, w1A.nextId) :: stA1.cache, stA1.finalizers⟩ :: stsA1,
          ⟨w1A.nextId + 1, w1A.log ++ [.invoke depm.name argsA]⟩))
    ∧ (resolveSync (f2 + 1) [cChild, cParent] [stB0, spB0]
        ⟨w1A.nextId + 1, w1A.log ++ [.invoke depm.name argsA]⟩ (some m) tym =
        (.ok w2A.nextId,
          ⟨(depm.name, w2A.nextId) :: stB1.cache, stB1.finalizers⟩ :: stsB1,
          ⟨w2A.nextId + 1, w2A.log ++ [.invoke depm.name argsB]⟩))
    ∧ w1A.nextId ≠ w2A.nextId := by
  refine ⟨?_, ?_, ?_, ?_, ?_⟩
  · exact resolveSync_fallback_ok (fuel + 1) cChild stC w n ty cParent [] stP []
      wA.nextId [⟨(dep.name, wA.nextId) :: stPA.cache, stPA.finalizers⟩]
      ⟨wA.nextId + 1, wA.log ++ [.invoke dep.name args]⟩ hmiss
      (resolveSync_create_callable fuel cParent [] stP [] w n ty dep args
        stPA [] wA hparent hkind hpmiss hargs)
  · intro g stC2
    exact resolveSync_fallback_ok (g + 1) cChild stC2 _ n ty cParent [] _ []
      wA.nextId _ _ hmiss
      (resolveSync_cache_hit g cParent [] _ [] _ (some n) ty dep wA.nextId
        hparent (cacheFind_cons_self dep.name wA.nextId stPA.cache))
  · exact resolveSync_create_callable f1 cChild [cParent] stA0 [spA0] w1 m tym
      depm argsA stA1 stsA1 w1A hmA hkA hcA hargsA
  · exact resolveSync_create_callable f2 cChild [cParent] stB0 [spB0] _ m tym
      depm argsB stB1 stsB1 w2A hmA hkA hcB hargsB
  · have hmono := resolveArgsWith_nextId_mono (resolveSync f2 [cChild, cParent])
      (fun sts w n ty => resolveSync_nextId_mono f2 [cChild, cParent] sts w n ty)
      depm.requires [stB0, spB0]
      ⟨w1A.nextId + 1, w1A.log ++ [.invoke depm.name argsA]⟩
    rw [hargsB] at hmono
    intro hEq
    simp only [hEq] at hmono
    omega

/-- C6 witness: `cfg` lives in the parent registry — resolving it from a
child scope caches it in the parent state and a second sibling child gets
the identical instance with nothing re-run; `m` lives in the child
registry — two independently opened child scopes construct two distinct
instances of it. -/
theorem c6_ancestor_caching_witness :
    (resolveSync 3 [childScopeContainer, parentScopeContainer]
        [emptyRState, emptyRState] emptyWorld (some "cfg") 0 =
      (.ok 0, [emptyRState, ⟨[("cfg", 0)], []⟩], ⟨1, [.invoke "cfg" []]⟩))
    ∧ (resolveSync 3 [childScopeContainer, parentScopeContainer]
        [emptyRState, ⟨[("cfg", 0)], []⟩] ⟨1, [.invoke "cfg" []]⟩
        (some "cfg") 0 =
      (.ok 0, [emptyRState, ⟨[("cfg", 0)], []⟩], ⟨1, [.invoke "cfg" []]⟩))
    ∧ (resolveSync 2 [childScopeContainer, parentScopeContainer]
        [emptyRState, emptyRState] ⟨1, [.invoke "cfg" []]⟩ (some "m") 4 =
      (.ok 1, [⟨[("m", 1)], []⟩, emptyRState],
        ⟨2, [.invoke "cfg" [], .invoke "m" []]⟩))
    ∧ (resolveSync 2 [childScopeContainer, parentScopeContainer]
        [emptyRState, emptyRState] ⟨2, [.invoke "cfg" [], .invoke "m" []]⟩
        (some "m") 4 =
      (.ok 2, [⟨[("m", 2)], []⟩, emptyRState],
        ⟨3, [.invoke "cfg" [], .invoke "m" [], .invoke "m" []]⟩))
    ∧ (1 : Value) ≠ 2 := by
  obtain ⟨h1, h2, h3, h4, h5⟩ :=
    c6_ancestor_caching_and_descendant_distinctness 1 childScopeContainer
      parentScopeContainer emptyRState emptyRState emptyWorld "cfg" 0
      (leafDep "cfg" 0) [] emptyRState emptyWorld
      "m" 4 (leafDep "m" 4) 1 1
      emptyRState emptyRState ⟨1, [.invoke "cfg" []]⟩ []
      emptyRState [emptyRState] ⟨1, [.invoke "cfg" []]⟩
      emptyRState emptyRState []
      emptyRState [emptyRState] ⟨2, [.invoke "cfg" [], .invoke "m" []]⟩
      rfl rfl rfl rfl rfl rfl rfl rfl rfl rfl rfl
  exact ⟨h1, h2 1 emptyRState, h3, h4, h5⟩

/-- Appending an invocation of a name adds one to its invocation count. -/
theorem countInvoke_append_self (n : String) (log : List Event)
    (args : List (String × Value)) :
    countInvoke n (log ++ [.invoke n args]) = countInvoke n log + 1 := by
  simp [countInvoke, List.filter_append]

/-- A successful async lookup can only deliver an async descriptor. -/
theorem lookupDepAsync_ok_async (c : Container) (n : Option String) (ty : Ty)
    (dep : Dep) (h : lookupDepAsync c n ty = .ok dep) : dep.isAsyncDep = true := by
  unfold lookupDepAsync at h
  match hb : lookupDepBase c n ty with
  | .error e => rw [hb] at h; exact absurd h (by simp)
  | .ok dep0 =>
    rw [hb] at h
    by_cases ha : dep0.isAsyncDep
    · simp [ha] at h
      rw [← h]
      exact ha
    · simp [ha] at h

/-- Awaiting a `_create` coroutine to completion leaves the produced
value in the cache under the dependency name. -/
theorem awaitComp_createComp_caches (g : Nat) (dep : Dep)
    (args : List (String × AsyncComp)) (st : RState) (w : World) (v : Value)
    (st2 : RState) (w2 : World) (k : Nat)
    (ha : dep.isAsyncDep = true)
    (h : awaitComp g (.createComp dep args) st w = (.ok v, st2, w2, k)) :
    cacheFind st2.cache dep.name = some v := by
  match g with
  | 0 => simp [awaitComp] at h
  | g + 1 =>
    simp only [awaitComp, ha, if_true] at h
    split at h
    · simp at h
    · split at h <;>
        (simp only [Prod.mk.injEq, Except.ok.injEq] at h
         obtain ⟨hv, hst, -, -⟩ := h
         rw [← hst, ← hv]
         exact cacheFind_cons_self dep.name _ _)

/-- Awaiting an `AwaitableValue` never suspends and changes nothing. -/
theorem awaitComp_settled (g : Nat) (v : Value) (st : RState) (w : World) :
    awaitComp g (.settled v) st w = (.ok v, st, w, 0) := by
  cases g <;> rfl

/-- Cache hit during the synchronous phase: the resolver hands back the
settled wrapper for the memoized value. -/
theorem asyncResolvePhase_cache_hit (f : Nat) (c : Container)
    (cache : List (String × Value)) (n : Option String) (ty : Ty) (dep : Dep)
    (v : Value)
    (h1 : lookupDepAsync c n ty = .ok dep)
    (hc : cacheFind cache dep.name = some v) :
    asyncResolvePhase (f + 1) c cache n ty = .ok (.settled v) := by
  simp [asyncResolvePhase, h1, hc]

/-- After a resolution built by the phase has been awaited to completion,
the produced value sits in the cache under the dependency name. -/
theorem async_resolution_caches (f g : Nat) (c : Container) (st : RState)
    (w : World) (n : Option String) (ty : Ty) (dep : Dep) (comp : AsyncComp)
    (v : Value) (st2 : RState) (w2 : World) (k : Nat)
    (h1 : lookupDepAsync c n ty = .ok dep)
    (hphase : asyncResolvePhase (f + 1) c st.cache n ty = .ok comp)
    (hawait : awaitComp g comp st w = (.ok v, st2, w2, k)) :
    cacheFind st2.cache dep.name = some v := by
  cases comp with
  | settled v0 =>
    rw [awaitComp_settled] at hawait
    simp only [Prod.mk.injEq, Except.ok.injEq] at hawait
    obtain ⟨hv, hst, -, -⟩ := hawait
    simp only [asyncResolvePhase, h1] at hphase
    split at hphase
    · rename_i p heq
      simp only [Except.ok.injEq, AsyncComp.settled.injEq] at hphase
      rw [← hst, heq, hphase, hv]
    · split at hphase
      · simp at hphase
      · simp at hphase
  | createComp dep0 args0 =>
    have hdep : dep0 = dep := by
      simp only [asyncResolvePhase, h1] at hphase
      split at hphase
      · simp at hphase
      · split at hphase
        · simp at hphase
        · simp only [Except.ok.injEq, AsyncComp.createComp.injEq] at hphase
          exact hphase.1.symm
    subst hdep
    exact awaitComp_createComp_caches g dep0 args0 st w v st2 w2 k
      (lookupDepAsync_ok_async c n ty dep0 h1) hawait

/-- C2: resolving the same dependency name twice in sequence within one
resolver.  Synchronous resolver (first three conjuncts): the first
resolution invokes the factory and caches the value; given that the
sub-dependency pass did not itself invoke this factory (the graph is not
cyclic through it), the invocation count of the name rises by exactly
one; the second resolution returns the identical value instance with the
resolver state and the world — in particular the invocation log —
completely unchanged, so the factory ran exactly once across both calls.
Asynchronous resolver (last two conjuncts): once a first resolution has
been awaited to completion, a second `resolve` call returns the settled
`AwaitableValue` wrapper of the same value, and awaiting it yields zero
suspensions, changes no state and re-invokes nothing. -/
theorem c2_second_resolution_returns_memoized_instance
    (fuel fuel2 : Nat) (c : Container) (st : RState) (w : World) (n : String)
    (ty : Ty) (dep : Dep) (args : List (String × Value)) (stA : RState)
    (wA : World)
    (f g f2 g2 : Nat) (ac : Container) (ast : RState) (aw0 : World)
    (an : Option String) (aty : Ty) (adep : Dep) (acomp : AsyncComp)
    (av : Value) (ast2 : RState) (aw2 : World) (ak : Nat)
    (h1 : lookupDepSync c (some n) ty = .ok dep)
    (hk : dep.factory = .callable)
    (hmiss : cacheFind st.cache dep.name = none)
    (hargs : resolveArgsWith (resolveSync fuel [c]) [st] w dep.requires =
      (.ok args, [stA], wA))
    (hnoself : countInvoke dep.name wA.log = countInvoke dep.name w.log)
    (ha1 : lookupDepAsync ac an aty = .ok adep)
    (haphase : asyncResolvePhase (f + 1) ac ast.cache an aty = .ok acomp)
    (hawait : awaitComp g acomp ast aw0 = (.ok av, ast2, aw2, ak)) :
    (resolveSync (fuel + 1) [c] [st] w (some n) ty =
      (.ok wA.nextId, [⟨(dep.name, wA.nextId) :: stA.cache, stA.finalizers⟩],
        ⟨wA.nextId + 1, wA.log ++ [.invoke dep.name args]⟩))
    ∧ countInvoke dep.name (wA.log ++ [.invoke dep.name args]) =
        countInvoke dep.name w.log + 1
    ∧ (resolveSync (fuel2 + 1) [c]
        [⟨(dep.name, wA.nextId) :: stA.cache, stA.finalizers⟩]
        ⟨wA.nextId + 1, wA.log ++ [.invoke dep.name args]⟩ (some n) ty =
      (.ok wA.nextId, [⟨(dep.name, wA.nextId) :: stA.cache, stA.finalizers⟩],
        ⟨wA.nextId + 1, wA.log ++ [.invoke dep.name args]⟩))
    ∧ asyncResolvePhase (f2 + 1) ac ast2.cache an aty = .ok (.settled av)
    ∧ awaitComp g2 (.settled av) ast2 aw2 = (.ok av, ast2, aw2, 0) := by
  refine ⟨?_, ?_, ?_, ?_, awaitComp_settled g2 av ast2 aw2⟩
  · exact resolveSync_create_callable fuel c [] st [] w n ty dep args stA [] wA
      h1 hk hmiss hargs
  · rw [countInvoke_append_self, hnoself]
  · exact resolveSync_cache_hit fuel2 c [] _ [] _ (some n) ty dep wA.nextId h1
      (cacheFind_cons_self dep.name wA.nextId stA.cache)
  · exact asyncResolvePhase_cache_hit f2 ac ast2.cache an aty adep av ha1
      (async_resolution_caches f g ac ast aw0 an aty adep acomp av ast2 aw2 ak
        ha1 haphase hawait)

/-- C2 witness: `a` resolved twice synchronously — one invocation, same
instance, second call changes nothing; `s` resolved twice through the
async resolver — the first await suspends twice, the second resolution is
already settled and awaits with zero suspensions and no new effects. -/
theorem c2_second_resolution_witness :
    (resolveSync 3 [mismatchChildContainer] [emptyRState] emptyWorld
        (some "a") 1 =
      (.ok 0, [⟨[("a", 0)], []⟩], ⟨1, [.invoke "a" []]⟩))
    ∧ countInvoke "a" [.invoke "a" []] = 0 + 1
    ∧ (resolveSync 3 [mismatchChildContainer] [⟨[("a", 0)], []⟩]
        ⟨1, [.invoke "a" []]⟩ (some "a") 1 =
      (.ok 0, [⟨[("a", 0)], []⟩], ⟨1, [.invoke "a" []]⟩))
    ∧ (awaitComp 3 (.createComp suspendingDep []) emptyRState emptyWorld =
      (.ok 0, ⟨[("s", 0)], []⟩, ⟨1, [.invoke "s" []]⟩, 2))
    ∧ asyncResolvePhase 3 suspendingContainer [("s", 0)] (some "s") 6 =
        .ok (.settled 0)
    ∧ awaitComp 3 (.settled 0) ⟨[("s", 0)], []⟩ ⟨1, [.invoke "s" []]⟩ =
        (.ok 0, ⟨[("s", 0)], []⟩, ⟨1, [.invoke "s" []]⟩, 0) := by
  obtain ⟨h1, h2, h3, h4, h5⟩ :=
    c2_second_resolution_returns_memoized_instance 2 2
      mismatchChildContainer emptyRState emptyWorld "a" 1 (leafDep "a" 1) []
      emptyRState emptyWorld
      2 3 2 3 suspendingContainer emptyRState emptyWorld (some "s") 6
      suspendingDep (.createComp suspendingDep []) 0 ⟨[("s", 0)], []⟩
      ⟨1, [.invoke "s" []]⟩ 2
      rfl rfl rfl rfl rfl rfl rfl rfl
  exact ⟨h1, h2, h3, rfl, h4, h5⟩

/-- C1 failing input: the diamond graph on the async resolver.  The claim
promises at-most-one factory invocation per name within one resolver for
the sync and the async variant alike, with the cache write landing before
sibling sub-dependency resolutions observe it.  The synchronous resolver
honours this (third conjunct: one `cfg` invocation).  The asynchronous
resolver does not: `BaseResolver.resolve` builds the argument awaitables
for both branches eagerly while the cache is still empty — the cache is
only written inside `AsyncResolver._create` when a coroutine is awaited,
and `_create` never re-checks the cache — so awaiting `c` runs the `cfg`
factory twice, and `a` and `b` even receive two different `cfg`
instances (identities 0 and 2 in the log below). -/
theorem c1_async_diamond_double_invocation :
    countInvoke "cfg"
      (runAsyncResolve 10 asyncDiamondContainer emptyRState emptyWorld
        (some "c") 3).2.2.1.log = 2
    ∧ (runAsyncResolve 10 asyncDiamondContainer emptyRState emptyWorld
        (some "c") 3).2.2.1.log =
      [.invoke "cfg" [], .invoke "a" [("cfg", 0)], .invoke "cfg" [],
        .invoke "b" [("cfg", 2)], .invoke "c" [("a", 1), ("b", 3)]]
    ∧ countInvoke "cfg"
        (resolveSync 10 [diamondContainer] [emptyRState] emptyWorld
          (some "c") 3).2.2.log = 1
    ∧ (resolveSync 10 [diamondContainer] [emptyRState] emptyWorld
        (some "c") 3).2.2.log =
      [.invoke "cfg" [], .invoke "a" [("cfg", 0)], .invoke "b" [("cfg", 0)],
        .invoke "c" [("a", 1), ("b", 2)]] := by
  exact ⟨by decide, by decide, by decide, by decide⟩

/-- The base lookup reads only `provides` and `types_matcher`. -/
theorem lookupDepBase_agree (a b : Container) (hp : a.provides = b.provides)
    (hm : a.types_matcher = b.types_matcher) (n : Option String) (ty : Ty) :
    lookupDepBase a n ty = lookupDepBase b n ty := by
  unfold lookupDepBase
  rw [hp, hm]

/-- The sync lookup reads only `provides` and `types_matcher`. -/
theorem lookupDepSync_agree (a b : Container) (hp : a.provides = b.provides)
    (hm : a.types_matcher = b.types_matcher) (n : Option String) (ty : Ty) :
    lookupDepSync a n ty = lookupDepSync b n ty := by
  unfold lookupDepSync
  rw [lookupDepBase_agree a b hp hm n ty]

/-- Argument resolution respects pointwise equal resolution functions. -/
theorem resolveArgsWith_congr
    (res res' : List RState → World → Option String → Ty →
      Except Err Value × List RState × World)
    (h : ∀ sts w n ty, res sts w n ty = res' sts w n ty) :
    ∀ (reqs : List (String × String × Ty)) (sts : List RState) (w : World),
      resolveArgsWith res sts w reqs = resolveArgsWith res' sts w reqs := by
  intro reqs
  induction reqs with
  | nil => intro sts w; rfl
  | cons r rest ih =>
    intro sts w
    obtain ⟨argName, subName, subTy⟩ := r
    simp only [resolveArgsWith, h, ih]

/-- Resolution is unchanged when every container in the chain is replaced
by one with the same `provides` and `types_matcher`: nothing else of a
container — in particular not `provides_unnamed` — is ever consulted. -/
theorem resolveSync_agree :
    ∀ (fuel : Nat) (cs cs' : List Container), containersAgree cs cs' →
      ∀ (sts : List RState) (w : World) (n : Option String) (ty : Ty),
        resolveSync fuel cs sts w n ty = resolveSync fuel cs' sts w n ty := by
  intro fuel
  induction fuel with
  | zero => intro cs cs' _ sts w n ty; rfl
  | succ fuel ih =>
    intro cs cs' hagree sts w n ty
    cases hagree with
    | nil => rfl
    | @cons a b l1 l2 hab htail =>
      obtain ⟨hp, hm⟩ := hab
      have hown : ∀ (sts : List RState) (w : World) (n : Option String)
          (ty : Ty), resolveSync fuel (a :: l1) sts w n ty =
            resolveSync fuel (b :: l2) sts w n ty :=
        fun sts w n ty =>
          ih (a :: l1) (b :: l2) (List.Forall₂.cons ⟨hp, hm⟩ htail) sts w n ty
      have hargs := resolveArgsWith_congr (resolveSync fuel (a :: l1))
        (resolveSync fuel (b :: l2)) hown
      have hfb : ∀ (sts : List RState) (w : World) (n : Option String)
          (ty : Ty), resolveSync fuel l1 sts w n ty =
            resolveSync fuel l2 sts w n ty :=
        fun sts w n ty => ih l1 l2 htail sts w n ty
      cases sts with
      | nil => rfl
      | cons st sts =>
        cases htail with
        | nil =>
          simp only [resolveSync, lookupDepSync_agree a b hp hm n ty, hargs]
        | @cons c2 c2' cs2 cs2' hab2 htail2 =>
          cases sts with
          | nil =>
            simp only [resolveSync, lookupDepSync_agree a b hp hm n ty, hargs]
          | cons s2 sts2 =>
            simp only [resolveSync, lookupDepSync_agree a b hp hm n ty, hargs,
              hfb]

/-- The sync lookup of a `None` name raises not-found: `None` is never a
key of the string-keyed mapping. -/
theorem lookupDepSync_none (c : Container) (ty : Ty) :
    lookupDepSync c none ty = .error ⟨.depNotFound none ty, none⟩ := rfl

/-- C10: `provides_unnamed` is never consulted.  First conjunct: replacing
every container in a chain by one with the same `provides` mapping and
`types_matcher` — in particular replacing the `provides_unnamed` sequence
by anything whatsoever — leaves every resolution unchanged, so no
resolver operation reads it.  Second conjunct: the same stated directly
for one resolver whose `provides_unnamed` content is swapped.  Third and
fourth conjuncts: a request whose name is not a key of `provides` —
including a `None` name — raises the not-found lookup error on a chain
of one, even when `provides_unnamed` holds a matching descriptor (the
container is universally quantified, so it may).  Fifth conjunct: with a
fallback present such a request is delegated to the fallback chain. -/
theorem c10_provides_unnamed_never_consulted
    (fuel : Nat) (c : Container) (st : RState) (w : World) (n : String)
    (ty : Ty) (p : List (String × Dep)) (u u' : List Dep)
    (m : Ty → Ty → Bool)
    (hmiss : findDep c.provides n = none) :
    (∀ (f : Nat) (cs cs' : List Container), containersAgree cs cs' →
      ∀ (sts : List RState) (w0 : World) (n0 : Option String) (ty0 : Ty),
        resolveSync f cs sts w0 n0 ty0 = resolveSync f cs' sts w0 n0 ty0)
    ∧ (∀ (f : Nat) (sts : List RState) (w0 : World) (n0 : Option String)
        (ty0 : Ty),
        resolveSync f [⟨p, u, m⟩] sts w0 n0 ty0 =
          resolveSync f [⟨p, u', m⟩] sts w0 n0 ty0)
    ∧ (resolveSync (fuel + 1) [c] [st] w (some n) ty =
        (.error ⟨.depNotFound (some n) ty, none⟩, [st], w))
    ∧ (resolveSync (fuel + 1) [c] [st] w none ty =
        (.error ⟨.depNotFound none ty, none⟩, [st], w))
    ∧ (∀ (c2 : Container) (cs2 : List Container) (s2 : RState)
        (sts2 : List RState) (v : Value) (sts3 : List RState) (w3 : World),
        resolveSync fuel (c2 :: cs2) (s2 :: sts2) w (some n) ty =
          (.ok v, sts3, w3) →
        resolveSync (fuel + 1) (c :: c2 :: cs2) (st :: s2 :: sts2) w
          (some n) ty = (.ok v, st :: sts3, w3)) := by
  refine ⟨resolveSync_agree, ?_, ?_, ?_, ?_⟩
  · intro f sts w0 n0 ty0
    exact resolveSync_agree f [⟨p, u, m⟩] [⟨p, u', m⟩]
      (List.Forall₂.cons ⟨rfl, rfl⟩ List.Forall₂.nil) sts w0 n0 ty0
  · simp only [resolveSync, lookupDepSync_of_missing c n ty hmiss,
      isLookupError_depNotFound, if_true]
  · simp only [resolveSync, lookupDepSync_none, isLookupError_depNotFound,
      if_true]
  · intro c2 cs2 s2 sts2 v sts3 w3 hfb
    exact resolveSync_fallback_ok fuel c st w n ty c2 cs2 s2 sts2 v sts3 w3
      hmiss hfb

/-- C10 witness: even though `provides_unnamed` holds a descriptor whose
declared type matches the request, resolution by name or by `None` fails
with not-found; and swapping `provides_unnamed` out changes nothing about
a successful resolution. -/
theorem c10_provides_unnamed_never_consulted_witness :
    (resolveSync 3 [unnamedOnlyContainer] [emptyRState] emptyWorld
        (some "u") 9 =
      (.error ⟨.depNotFound (some "u") 9, none⟩, [emptyRState], emptyWorld))
    ∧ (resolveSync 3 [unnamedOnlyContainer] [emptyRState] emptyWorld none 9 =
      (.error ⟨.depNotFound none 9, none⟩, [emptyRState], emptyWorld))
    ∧ (resolveSync 3 [⟨[("a", leafDep "a" 1)], [leafDep "u" 9], eqMatcher⟩]
        [emptyRState] emptyWorld (some "a") 1 =
      resolveSync 3 [⟨[("a", leafDep "a" 1)], [], eqMatcher⟩]
        [emptyRState] emptyWorld (some "a") 1)
    ∧ (resolveSync 3 [unnamedOnlyContainer, parentScopeContainer]
        [emptyRState, emptyRState] emptyWorld (some "cfg") 0 =
      (.ok 0, [emptyRState, ⟨[("cfg", 0)], []⟩], ⟨1, [.invoke "cfg" []]⟩)) := by
  obtain ⟨-, h2, h3, h4, h5⟩ :=
    c10_provides_unnamed_never_consulted 2 unnamedOnlyContainer emptyRState
      emptyWorld "u" 9 [("a", leafDep "a" 1)] [leafDep "u" 9] []
      eqMatcher rfl
  obtain ⟨-, -, -, -, h5b⟩ :=
    c10_provides_unnamed_never_consulted 2 unnamedOnlyContainer emptyRState
      emptyWorld "cfg" 0 [("a", leafDep "a" 1)] [leafDep "u" 9] []
      eqMatcher rfl
  refine ⟨h3, h4, h2 3 [emptyRState] emptyWorld (some "a") 1, ?_⟩
  exact h5b parentScopeContainer [] emptyRState [] 0 [⟨[("cfg", 0)], []⟩]
    ⟨1, [.invoke "cfg" []]⟩ rfl

/-- Pointwise equal checks agree on the disjunction over bases. -/
theorem anySubWith_congr (sf sg : Nat → Bool) (l : List Nat)
    (h : ∀ x ∈ l, sf x = sg x) : anySubWith sf l = anySubWith sg l := by
  induction l with
  | nil => rfl
  | cons b bs ih =>
    simp only [anySubWith, h b (by simp)]
    rw [ih fun x hx => h x (by simp [hx])]

/-- Pointwise equal method functions agree on the concatenation. -/
theorem joinMethodsWith_congr (mf mg : Nat → List String) (l : List Nat)
    (h : ∀ x ∈ l, mf x = mg x) :
    joinMethodsWith mf l = joinMethodsWith mg l := by
  induction l with
  | nil => rfl
  | cons b bs ih =>
    simp only [joinMethodsWith, h b (by simp)]
    rw [ih fun x hx => h x (by simp [hx])]

/-- Membership in the direct bases bounds the index. -/
theorem directBases_lt (tbl : ClassTable) (a p : Nat)
    (h : p ∈ directBases tbl a) : p < a := by
  have := List.mem_filter.mp h
  exact of_decide_eq_true this.2

/-- The fuel does not matter once it exceeds the class index. -/
theorem isSubclassF_stable (tbl : ClassTable) :
    ∀ (a f g b : Nat), a < f → a < g →
      isSubclassF f tbl a b = isSubclassF g tbl a b := by
  intro a
  induction a using Nat.strong_induction_on with
  | _ a ih =>
    intro f g b hf hg
    match f, g with
    | f + 1, g + 1 =>
      simp only [isSubclassF]
      rw [anySubWith_congr (fun p => isSubclassF f tbl p b)
        (fun p => isSubclassF g tbl p b) (directBases tbl a)
        fun p hp => ih p (directBases_lt tbl a p hp) f g b
          (by have := directBases_lt tbl a p hp; omega)
          (by have := directBases_lt tbl a p hp; omega)]

/-- The fuel does not matter once it exceeds the class index. -/
theorem methodsOfF_stable (tbl : ClassTable) :
    ∀ (a f g : Nat), a < f → a < g →
      methodsOfF f tbl a = methodsOfF g tbl a := by
  intro a
  induction a using Nat.strong_induction_on with
  | _ a ih =>
    intro f g hf hg
    match f, g with
    | f + 1, g + 1 =>
      simp only [methodsOfF]
      rw [joinMethodsWith_congr (methodsOfF f tbl) (methodsOfF g tbl)
        (directBases tbl a)
        fun p hp => ih p (directBases_lt tbl a p hp) f g
          (by have := directBases_lt tbl a p hp; omega)
          (by have := directBases_lt tbl a p hp; omega)]

/-- Boolean containment of method lists as a proposition. -/
theorem allMember_iff (xs ys : List String) :
    allMember xs ys = true ↔ ∀ s ∈ xs, s ∈ ys := by
  simp [allMember, List.all_eq_true, List.elem_iff]

/-- The disjunction over bases holds exactly when one base passes. -/
theorem anySubWith_true_iff (sf : Nat → Bool) (l : List Nat) :
    anySubWith sf l = true ↔ ∃ x ∈ l, sf x = true := by
  induction l with
  | nil => simp [anySubWith]
  | cons b bs ih => simp [anySubWith, ih]

/-- Whatever a base offers also appears in the concatenation. -/
theorem mem_joinMethodsWith (mf : Nat → List String) (l : List Nat) (x : Nat)
    (hx : x ∈ l) (s : String) (hs : s ∈ mf x) : s ∈ joinMethodsWith mf l := by
  induction l with
  | nil => exact absurd hx (by simp)
  | cons b bs ih =>
    simp only [joinMethodsWith, List.mem_append]
    rcases List.mem_cons.mp hx with hb | hb
    · exact Or.inl (hb ▸ hs)
    · exact Or.inr (ih hb)

/-- Every class is a nominal subclass of itself. -/
theorem nominalSubclass_refl (tbl : ClassTable) (a : Nat) :
    nominalSubclass tbl a a = true := by
  simp [nominalSubclass, isSubclassF]

/-- A nominal subclass inherits every method of the superclass: the
method set of the superclass is contained in that of the subclass. -/
theorem methods_subset_of_subclass (tbl : ClassTable) :
    ∀ (a b : Nat), nominalSubclass tbl a b = true →
      ∀ s ∈ methodsOf tbl b, s ∈ methodsOf tbl a := by
  intro a
  induction a using Nat.strong_induction_on with
  | _ a ih =>
    intro b hsub s hs
    unfold nominalSubclass at hsub
    simp only [isSubclassF, Bool.or_eq_true] at hsub
    rcases hsub with heq | hbase
    · rw [eq_of_beq heq]
      exact hs
    · obtain ⟨p, hp, hps⟩ := (anySubWith_true_iff _ _).mp hbase
      have hpa := directBases_lt tbl a p hp
      have hpsub : nominalSubclass tbl p b = true := by
        unfold nominalSubclass
        rw [isSubclassF_stable tbl p (p + 1) a b (Nat.lt_succ_self p) hpa]
        exact hps
      have hsp : s ∈ methodsOf tbl p := ih p hpa b hpsub s hs
      unfold methodsOf
      simp only [methodsOfF, List.mem_append]
      refine Or.inr (mem_joinMethodsWith (methodsOfF a tbl)
        (directBases tbl a) p hp s ?_)
      rw [methodsOfF_stable tbl p a (p + 1) hpa (Nat.lt_succ_self p)]
      exact hsp

/-- Every class structurally conforms to itself. -/
theorem conformsStructurally_refl (tbl : ClassTable) (a : Nat) :
    conformsStructurally tbl a a = true := by
  rw [conformsStructurally, allMember_iff]
  exact fun s hs => hs

/-- A nominal subclass of a protocol also conforms structurally: it
inherits every protocol member. -/
theorem conformsStructurally_of_subclass (tbl : ClassTable) (a r : Nat)
    (h : nominalSubclass tbl a r = true) :
    conformsStructurally tbl a r = true := by
  rw [conformsStructurally, allMember_iff]
  exact methods_subset_of_subclass tbl a r h

/-- C8: the default types matcher.  First two conjuncts: both arguments
are stripped of generic parameterization before anything else, so the
verdict ignores the argument lists of a subscripted generic on either
side.  Third conjunct: when the stripped required type is a plain nominal
class, the request is accepted exactly when the stripped provided type is
the same class or a nominal subclass — structural conformance buys
nothing here.  Fourth conjunct: when the stripped required type is an
explicitly runtime-checkable structural interface, the request is
accepted exactly when the provided type is the same class, a nominal
subclass, or a structural conformer (the first two imply the third, since
protocol members are inherited). -/
theorem c8_default_types_matcher (tbl : ClassTable) (o : Nat)
    (xs ys : List PyType) (t r : PyType) :
    (is_type_acceptable_in_place_of tbl (.generic o xs) r =
      is_type_acceptable_in_place_of tbl (.generic o ys) r)
    ∧ (is_type_acceptable_in_place_of tbl t (.generic o xs) =
        is_type_acceptable_in_place_of tbl t (.generic o ys))
    ∧ ((classInfo tbl (stripToClass r)).isProtocol = false →
        (is_type_acceptable_in_place_of tbl t r = .ok true ↔
          (stripToClass t = stripToClass r ∨
            nominalSubclass tbl (stripToClass t) (stripToClass r) = true)))
    ∧ ((classInfo tbl (stripToClass r)).isProtocol = true →
        (classInfo tbl (stripToClass r)).isRuntimeProtocol = true →
        (is_type_acceptable_in_place_of tbl t r = .ok true ↔
          (stripToClass t = stripToClass r ∨
            nominalSubclass tbl (stripToClass t) (stripToClass r) = true ∨
            conformsStructurally tbl (stripToClass t) (stripToClass r) =
              true))) := by
  refine ⟨rfl, rfl, ?_, ?_⟩
  · intro hp
    simp only [is_type_acceptable_in_place_of, issubclassPy, hp,
      Bool.false_eq_true, if_false]
    constructor
    · intro h
      right
      unfold nominalSubclass
      simpa using h
    · rintro (heq | hsub)
      · rw [heq]
        have hr := nominalSubclass_refl tbl (stripToClass r)
        unfold nominalSubclass at hr
        rw [hr]
    
      · unfold nominalSubclass at hsub
        rw [hsub]
  · intro hp hrt
    simp only [is_type_acceptable_in_place_of, issubclassPy, hp, hrt, if_true]
    constructor
    · intro h
      right; right
      simpa using h
    · rintro (heq | hsub | hconf)
      · rw [heq, conformsStructurally_refl]
      · rw [conformsStructurally_of_subclass tbl _ _ hsub]
      · rw [hconf]

/-- C8 witness: generic arguments are interchangeable; `FooInheritor`
satisfies `Foo` nominally; `Foo` satisfies the runtime protocol
`FooProto` structurally without inheriting from it; `NominalFooABC`
satisfies `FooABC` nominally; but `Foo`, despite defining `bar`, does not
satisfy the plain nominal `FooABC`, and the memberless class does not
satisfy `FooProto`. -/
theorem c8_default_types_matcher_witness :
    (is_type_acceptable_in_place_of fooTable (.generic 0 [.cls 5]) (.cls 2) =
      is_type_acceptable_in_place_of fooTable (.generic 0 [.cls 3]) (.cls 2))
    ∧ is_type_acceptable_in_place_of fooTable (.cls 1) (.cls 0) = .ok true
    ∧ is_type_acceptable_in_place_of fooTable (.cls 0) (.cls 2) = .ok true
    ∧ is_type_acceptable_in_place_of fooTable (.cls 4) (.cls 3) = .ok true
    ∧ ¬ is_type_acceptable_in_place_of fooTable (.cls 0) (.cls 3) = .ok true
    ∧ ¬ is_type_acceptable_in_place_of fooTable (.cls 5) (.cls 2) = .ok true := by
  obtain ⟨hgen, -, -, -⟩ :=
    c8_default_types_matcher fooTable 0 [.cls 5] [.cls 3] (.cls 1) (.cls 2)
  obtain ⟨-, -, hnom10, -⟩ :=
    c8_default_types_matcher fooTable 0 [] [] (.cls 1) (.cls 0)
  obtain ⟨-, -, -, hproto02⟩ :=
    c8_default_types_matcher fooTable 0 [] [] (.cls 0) (.cls 2)
  obtain ⟨-, -, hnom43, -⟩ :=
    c8_default_types_matcher fooTable 0 [] [] (.cls 4) (.cls 3)
  obtain ⟨-, -, hnom03, -⟩ :=
    c8_default_types_matcher fooTable 0 [] [] (.cls 0) (.cls 3)
  obtain ⟨-, -, -, hproto52⟩ :=
    c8_default_types_matcher fooTable 0 [] [] (.cls 5) (.cls 2)
  refine ⟨hgen, ?_, ?_, ?_, ?_, ?_⟩
  · exact (hnom10 rfl).mpr (Or.inr (by decide))
  · exact (hproto02 rfl rfl).mpr (Or.inr (Or.inr (by decide)))
  · exact (hnom43 rfl).mpr (Or.inr (by decide))
  · intro h
    exact absurd ((hnom03 rfl).mp h) (by decide)
  · intro h
    exact absurd ((hproto52 rfl rfl).mp h) (by decide)
